import Mathlib

/-!
Verification of the steganographic codec of `steganography.py`
(class `AdvancedSteganography`).

The embedding is byte-level: Python `bytes` values are `List Nat` whose
elements are in `[0, 255]`, images are the RGB pixel buffer the code reads
out of numpy (`stego_array[y, x] = (r, g, b)`), and a Python `str` is
represented by its UTF-8 byte sequence.  `decode` in the source returns the
recovered payload as text (UTF-8, or base64 when the bytes are not valid
UTF-8); here it returns the recovered payload bytes themselves, `none`
standing for Python `None`.  The external libraries the code calls are
modelled bit-exactly: `hashlib.sha256` as `sha256` below and the
`random.seed`/`random.shuffle` pair (MT19937 with CPython seeding) as
`seedMT`/`pyShuffle`; both were checked value-for-value against CPython.
-/

namespace Stego

/-- 2^32, the modulus of all 32-bit arithmetic below. -/
def M32 : Nat := 4294967296

/-- Rotate a 32-bit word right by `n`. -/
def rotr (n x : Nat) : Nat := ((x >>> n) ||| (x <<< (32 - n))) % M32

/-- SHA-256 round constants. -/
def sha256K : List Nat :=
  [1116352408, 1899447441, 3049323471, 3921009573, 961987163, 1508970993, 2453635748, 2870763221,
   3624381080, 310598401, 607225278, 1426881987, 1925078388, 2162078206, 2614888103, 3248222580,
   3835390401, 4022224774, 264347078, 604807628, 770255983, 1249150122, 1555081692, 1996064986,
   2554220882, 2821834349, 2952996808, 3210313671, 3336571891, 3584528711, 113926993, 338241895,
   666307205, 773529912, 1294757372, 1396182291, 1695183700, 1986661051, 2177026350, 2456956037,
   2730485921, 2820302411, 3259730800, 3345764771, 3516065817, 3600352804, 4094571909, 275423344,
   430227734, 506948616, 659060556, 883997877, 958139571, 1322822218, 1537002063, 1747873779,
   1955562222, 2024104815, 2227730452, 2361852424, 2428436474, 2756734187, 3204031479, 3329325298]

/-- SHA-256 working state: the eight 32-bit words a..h. -/
abbrev Hash8 := Nat × Nat × Nat × Nat × Nat × Nat × Nat × Nat

/-- SHA-256 initial hash value. -/
def sha256H0 : Hash8 :=
  (1779033703, 3144134277, 1013904242, 2773480762,
   1359893119, 2600822924, 528734635, 1541459225)

/-- SHA-256 Ch function (bitwise choose); the complement is taken inside 32 bits. -/
def chf (x y z : Nat) : Nat := (x &&& y) ^^^ ((x ^^^ 4294967295) &&& z)

/-- SHA-256 Maj function (bitwise majority). -/
def majf (x y z : Nat) : Nat := (x &&& y) ^^^ (x &&& z) ^^^ (y &&& z)

/-- SHA-256 message-schedule sigma-0. -/
def smallSigma0 (x : Nat) : Nat := rotr 7 x ^^^ rotr 18 x ^^^ (x >>> 3)

/-- SHA-256 message-schedule sigma-1. -/
def smallSigma1 (x : Nat) : Nat := rotr 17 x ^^^ rotr 19 x ^^^ (x >>> 10)

/-- SHA-256 compression Sigma-0. -/
def bigSigma0 (x : Nat) : Nat := rotr 2 x ^^^ rotr 13 x ^^^ rotr 22 x

/-- SHA-256 compression Sigma-1. -/
def bigSigma1 (x : Nat) : Nat := rotr 6 x ^^^ rotr 11 x ^^^ rotr 25 x

/-- Big-endian 4-byte decomposition of a 32-bit word. -/
def wordBE4 (n : Nat) : List Nat :=
  [(n >>> 24) &&& 255, (n >>> 16) &&& 255, (n >>> 8) &&& 255, n &&& 255]

/-- Pack big-endian 4-byte groups into 32-bit words. -/
def wordsOfBytes : List Nat → List Nat
  | b0 :: b1 :: b2 :: b3 :: rest =>
    ((b0 <<< 24) ||| (b1 <<< 16) ||| (b2 <<< 8) ||| b3) :: wordsOfBytes rest
  | _ => []

/-- Extend a 16-word SHA-256 message schedule by `k` further words. -/
def schedExtend (w : List Nat) : Nat → List Nat
  | 0 => w
  | k + 1 =>
    let i := w.length
    let v := (w.getD (i - 16) 0 + smallSigma0 (w.getD (i - 15) 0) +
              w.getD (i - 7) 0 + smallSigma1 (w.getD (i - 2) 0)) % M32
    schedExtend (w ++ [v]) k

/-- One SHA-256 compression round, consuming a (round constant, schedule word) pair. -/
def roundStep (st : Hash8) (kw : Nat × Nat) : Hash8 :=
  let (a, b, c, d, e, f, g, h) := st
  let t1 := (h + bigSigma1 e + chf e f g + kw.1 + kw.2) % M32
  let t2 := (bigSigma0 a + majf a b c) % M32
  ((t1 + t2) % M32, a, b, c, (d + t1) % M32, e, f, g)

/-- Compress one 64-byte block into the running hash value. -/
def sha256Compress (hv : Hash8) (block : List Nat) : Hash8 :=
  let w := schedExtend (wordsOfBytes block) 48
  let (a, b, c, d, e, f, g, h) := (sha256K.zip w).foldl roundStep hv
  let (a0, b0, c0, d0, e0, f0, g0, h0) := hv
  ((a0 + a) % M32, (b0 + b) % M32, (c0 + c) % M32, (d0 + d) % M32,
   (e0 + e) % M32, (f0 + f) % M32, (g0 + g) % M32, (h0 + h) % M32)

/-- Fold `n` 64-byte blocks of `data` into the hash value. -/
def sha256Blocks (hv : Hash8) (data : List Nat) : Nat → Hash8
  | 0 => hv
  | n + 1 => sha256Blocks (sha256Compress hv (data.take 64)) (data.drop 64) n

/-- Big-endian 8-byte encoding of the SHA-256 bit-length field. -/
def lenBE8 (n : Nat) : List Nat :=
  [(n >>> 56) &&& 255, (n >>> 48) &&& 255, (n >>> 40) &&& 255, (n >>> 32) &&& 255,
   (n >>> 24) &&& 255, (n >>> 16) &&& 255, (n >>> 8) &&& 255, n &&& 255]

/-- SHA-256 padding: 0x80, zeros to 56 mod 64, then the bit length big-endian. -/
def sha256Pad (msg : List Nat) : List Nat :=
  msg ++ 128 :: List.replicate ((119 - msg.length % 64) % 64) 0 ++ lenBE8 (msg.length * 8)

/-- SHA-256 of a byte sequence, as its 32-byte digest (model of `hashlib.sha256`,
checked against CPython digests). -/
def sha256 (msg : List Nat) : List Nat :=
  let padded := sha256Pad msg
  let (a, b, c, d, e, f, g, h) := sha256Blocks sha256H0 padded (padded.length / 64)
  wordBE4 a ++ wordBE4 b ++ wordBE4 c ++ wordBE4 d ++
  wordBE4 e ++ wordBE4 f ++ wordBE4 g ++ wordBE4 h

/-- Big-endian interpretation of a byte sequence (model of `int.from_bytes(-, 'big')`). -/
def bytesToNatBE (bs : List Nat) : Nat := bs.foldl (fun acc b => acc * 256 + b) 0

/-! ### MT19937, as seeded and driven by CPython's `random` module

`random.seed(n)` for an integer `0 <= n < 2^32` runs `init_by_array` on the
single-word key `[n]`; `random.shuffle` is a Fisher-Yates loop over
`_randbelow`, which draws `n.bit_length()` bits and rejects values `>= n`.
All of the following was checked word-for-word against CPython's
`random.getstate()` and `random.getrandbits`/`random.shuffle` outputs. -/

/-- Mersenne Twister state: 624 32-bit words plus the read index. -/
structure MTState where
  mt : List Nat
  mti : Nat

/-- Tail of `init_genrand`: word `i` is built from word `i-1`. -/
def initGenrandAux (prev i : Nat) : Nat → List Nat
  | 0 => []
  | k + 1 =>
    let v := (1812433253 * (prev ^^^ (prev >>> 30)) + i) % M32
    v :: initGenrandAux v (i + 1) k

/-- The MT `init_genrand` initialization. -/
def initGenrand (s : Nat) : List Nat :=
  let m0 := s % M32
  m0 :: initGenrandAux m0 1 623

/-- One phase-A step of `init_by_array` for a single-word key (`j = 0` throughout). -/
def ibaStepA (key0 x prev : Nat) : Nat :=
  ((x ^^^ (((prev ^^^ (prev >>> 30)) * 1664525) % M32)) + key0) % M32

/-- Phase-A scan: each word is rewritten using the already-rewritten previous word. -/
def ibaScanA (key0 : Nat) : Nat → List Nat → List Nat
  | _, [] => []
  | prev, x :: xs =>
    let v := ibaStepA key0 x prev
    v :: ibaScanA key0 v xs

/-- One phase-B step of `init_by_array` at position `i` (the `- i` wraps mod 2^32). -/
def ibaStepB (i x prev : Nat) : Nat :=
  ((x ^^^ (((prev ^^^ (prev >>> 30)) * 1566083941) % M32)) + M32 - i) % M32

/-- Phase-B scan, threading the rewritten previous word and the position. -/
def ibaScanB : Nat → Nat → List Nat → List Nat
  | _, _, [] => []
  | prev, i, x :: xs =>
    let v := ibaStepB i x prev
    v :: ibaScanB v (i + 1) xs

/-- The MT `init_by_array` initialization for the single-word key `[key0]`,
restructured as scans (phase A visits indices 1..623 then index 1 again after
the wrap `mt[0] := mt[623]`; phase B visits 2..623 then index 1; finally
`mt[0] := 0x80000000`).  Checked against `random.getstate()`. -/
def initByArray1 (key0 : Nat) : List Nat :=
  let mt0 := initGenrand 19650218
  let m0 := mt0.headD 0
  let ra := ibaScanA key0 m0 mt0.tail
  let m0a := ra.getLastD 0
  let a1 := ibaStepA key0 (ra.headD 0) m0a
  let rb := ibaScanB a1 2 ra.tail
  let m0b := rb.getLastD 0
  let b1 := ibaStepB 1 a1 m0b
  2147483648 :: b1 :: rb

/-- The generator state produced by `random.seed(seed)` for `0 <= seed < 2^32`. -/
def seedMT (seed : Nat) : MTState :=
  MTState.mk (initByArray1 (seed % M32)) 624

/-- Three-way zip, truncating at the shortest list. -/
def zipWith3 (f : Nat → Nat → Nat → Nat) : List Nat → List Nat → List Nat → List Nat
  | a :: as, b :: bs, c :: cs => f a b c :: zipWith3 f as bs cs
  | _, _, _ => []

/-- The MT twist update of one word from `mt[kk]`, `mt[kk+1]`, `mt[kk+397]`. -/
def mtStep (a b c : Nat) : Nat :=
  let y := (a &&& 2147483648) ||| (b &&& 2147483647)
  c ^^^ (y >>> 1) ^^^ (if y &&& 1 = 1 then 2567483615 else 0)

/-- The MT twist of the full 624-word state.  The C loop updates in place; the
four slices reproduce exactly which positions read old and which read already
updated words (checked against a sequential reference). -/
def twist (old : List Nat) : List Nat :=
  let newA := zipWith3 mtStep (old.take 227) ((old.drop 1).take 227) (old.drop 397)
  let newB := zipWith3 mtStep ((old.drop 227).take 227) ((old.drop 228).take 227) newA
  let newC := zipWith3 mtStep ((old.drop 454).take 169) ((old.drop 455).take 169) newB
  let newLast := mtStep (old.getD 623 0) (newA.getD 0 0) (newB.getD 169 0)
  newA ++ newB ++ newC ++ [newLast]

/-- The MT output tempering. -/
def temper (y : Nat) : Nat :=
  let y1 := y ^^^ (y >>> 11)
  let y2 := y1 ^^^ ((y1 <<< 7) &&& 2636928640)
  let y3 := y2 ^^^ ((y2 <<< 15) &&& 4022730752)
  (y3 ^^^ (y3 >>> 18)) % M32

/-- Draw one 32-bit word, twisting when the 624 buffered words are spent. -/
def genrandUint32 (g : MTState) : Nat × MTState :=
  let g2 := if 624 ≤ g.mti then MTState.mk (twist g.mt) 0 else g
  (temper (g2.mt.getD g2.mti 0), MTState.mk g2.mt (g2.mti + 1))

/-- CPython `getrandbits(k)` for `k >= 1`: 32-bit words drawn little-endian, the
last word keeping only its top bits.  The fuel (third argument) only bounds the
word count; `getrandbits` passes `k` itself, which always suffices. -/
def getrandbitsAux : MTState → Nat → Nat → Nat × MTState
  | g, k, 0 =>
    let (y, g2) := genrandUint32 g
    (y >>> (32 - k), g2)
  | g, k, fuel + 1 =>
    let (y, g2) := genrandUint32 g
    if k ≤ 32 then (y >>> (32 - k), g2)
    else
      let (hi, g3) := getrandbitsAux g2 (k - 32) fuel
      (y ||| (hi <<< 32), g3)

/-- CPython `getrandbits(k)` (defined for `k >= 1`). -/
def getrandbits (g : MTState) (k : Nat) : Nat × MTState := getrandbitsAux g k k

/-- Python `int.bit_length`, with enough structural fuel to be kernel-reducible. -/
def bitLenAux : Nat → Nat → Nat
  | 0, _ => 0
  | fuel + 1, n => if n = 0 then 0 else bitLenAux fuel (n / 2) + 1

/-- Python `int.bit_length`. -/
def pyBitLength (n : Nat) : Nat := bitLenAux n n

/-- Rejection loop of `_randbelow_with_getrandbits`.  CPython's loop is
unbounded but terminates with probability 1; the fuel bounds it at 64
rejections, after which `r % n` is returned, which preserves the only property
the shuffle needs (`result < n`).  The fallback is never reached on the seeds
evaluated in this file. -/
def randbelowAux (g : MTState) (n k : Nat) : Nat → Nat × MTState
  | 0 =>
    let (r, g2) := getrandbits g k
    (r % n, g2)
  | fuel + 1 =>
    let (r, g2) := getrandbits g k
    if r < n then (r, g2) else randbelowAux g2 n k fuel

/-- CPython `Random._randbelow_with_getrandbits(n)` for `n >= 1`. -/
def randbelow (g : MTState) (n : Nat) : Nat × MTState :=
  randbelowAux g n (pyBitLength n) 64

/-- The Fisher-Yates loop of `random.shuffle`: `for i in reversed(range(1, len(x)))`,
swap `x[i]` with `x[randbelow(i+1)]`.  The third argument is the current `i`. -/
def shuffleLoop : MTState → List Nat → Nat → MTState × List Nat
  | g, x, 0 => (g, x)
  | g, x, i + 1 =>
    let jr := randbelow g (i + 2)
    let xi := x.getD (i + 1) 0
    let xj := x.getD jr.1 0
    shuffleLoop jr.2 ((x.set (i + 1) xj).set jr.1 xi) i

/-- `random.seed(seed); random.shuffle(x)` as a pure function of `(seed, x)`. -/
def pyShuffle (seed : Nat) (x : List Nat) : List Nat :=
  (shuffleLoop (seedMT seed) x (x.length - 1)).2

/-! ### The codec model (`steganography.py`) -/

/-- The fixed 7-byte ASCII marker `b'SSSTEGO'`. -/
def marker : List Nat := [83, 83, 83, 84, 69, 71, 79]

/-- `struct.pack("<I", n)`: the 4-byte little-endian encoding of `n < 2^32`. -/
def packLE4 (n : Nat) : List Nat :=
  [n % 256, n / 256 % 256, n / 65536 % 256, n / 16777216 % 256]

/-- `struct.unpack("<I", -)` on a 4-byte little-endian field. -/
def unpackLE4 (bs : List Nat) : Nat :=
  bs.getD 0 0 + 256 * bs.getD 1 0 + 65536 * bs.getD 2 0 + 16777216 * bs.getD 3 0

/-- The RGB pixel buffer: `pixels` lists the rows in order, pixel `(x, y)`
sitting at index `y * width + x`; each entry is the `(r, g, b)` channel triple. -/
structure Image where
  width : Nat
  height : Nat
  pixels : List (Nat × Nat × Nat)
deriving DecidableEq

/-- Linear index of coordinate `(x, y)` in the pixel buffer. -/
def coordIdx (w : Nat) (c : Nat × Nat) : Nat := c.2 * w + c.1

/-- `_embed_bit`: clamp the value into 0..255 (`max(0, -)` is the identity on
`Nat`), clear the least significant bit and set it to the data bit. -/
def embedBit (value bit : Nat) : Nat :=
  (min 255 value &&& 254) ||| (bit &&& 1)

/-- `_extract_bit`: the least significant bit of a channel value. -/
def extractBit (value : Nat) : Nat := value &&& 1

/-- The bit expansion of one byte, least-significant bit first (`(b >> i) & 1`). -/
def byteBits (b : Nat) : List Nat :=
  (List.range 8).map (fun i => (b >>> i) &&& 1)

/-- The bit sequence of a byte string, each byte expanded LSB-first. -/
def bytesToBits (bs : List Nat) : List Nat :=
  bs.flatMap byteBits

/-- Reassemble one byte from bits, `byte |= 1 << j` for each nonzero bit `j`. -/
def byteFromBits (bits : List Nat) : Nat :=
  (List.range 8).foldl (fun byte j => if bits.getD j 0 ≠ 0 then byte ||| (1 <<< j) else byte) 0

/-- The byte-assembly loop of `_decode_image`: up to `n` bytes, keeping only
chunks of 8 bits that lie fully inside `bits`. -/
def bytesFromBits (bits : List Nat) : Nat → List Nat
  | 0 => []
  | n + 1 =>
    if 8 ≤ bits.length then byteFromBits (bits.take 8) :: bytesFromBits (bits.drop 8) n
    else []

/-- The no-password pixel order: `[(x, y) for y in range(height) for x in range(width)]`. -/
def rasterCoords (width height : Nat) : List (Nat × Nat) :=
  (List.range height).flatMap (fun y => (List.range width).map (fun x => (x, y)))

/-- Password to seed: the first 4 bytes of the SHA-256 digest of the UTF-8
password, big-endian. -/
def seedOfPassword (password : List Nat) : Nat :=
  bytesToNatBE ((sha256 password).take 4)

/-- The pixel traversal order for a given password.  `if password:` in the
source makes both `None` and the empty string take the raster branch; a
nonempty password seeds the global generator and shuffles the linear indices,
index `i` mapping to `(i % width, i // width)`. -/
def pixelCoords (width height : Nat) (password : Option (List Nat)) : List (Nat × Nat) :=
  match password with
  | some p =>
    if p.isEmpty then rasterCoords width height
    else (pyShuffle (seedOfPassword p) (List.range (width * height))).map
           (fun i => (i % width, i / width))
  | none => rasterCoords width height

/-- Embed up to 3 bits into the channels of one pixel, in the fixed order red,
green, blue, returning the updated pixel and the unconsumed bits. -/
def embedPixel (p : Nat × Nat × Nat) (bits : List Nat) : (Nat × Nat × Nat) × List Nat :=
  match bits with
  | [] => (p, [])
  | [b1] => ((embedBit p.1 b1, p.2.1, p.2.2), [])
  | [b1, b2] => ((embedBit p.1 b1, embedBit p.2.1 b2, p.2.2), [])
  | b1 :: b2 :: b3 :: rest =>
    ((embedBit p.1 b1, embedBit p.2.1 b2, embedBit p.2.2 b3), rest)

/-- The embedding loop of `encode`: walk the coordinate sequence, stop as soon
as all bits are consumed, and write up to 3 bits per visited pixel. -/
def embedLoop (w : Nat) : List (Nat × Nat × Nat) → List (Nat × Nat) → List Nat → List (Nat × Nat × Nat)
  | px, [], _ => px
  | px, c :: cs, bits =>
    if bits.isEmpty then px
    else
      let idx := coordIdx w c
      let pr := embedPixel (px.getD idx (0, 0, 0)) bits
      embedLoop w (px.set idx pr.1) cs pr.2

/-- The failure modes of `encode`: `struct.error` from packing a length that
does not fit 4 bytes (raised on line 70, before the capacity check), and the
capacity `ValueError` carrying the required and available bit counts. -/
inductive EncodeError where
  | structError : EncodeError
  | capacityError (required available : Nat) : EncodeError
deriving DecidableEq

/-- Line 70: `message_bytes = self.marker + struct.pack("<I", len(message_data)) + message_data`;
`struct.pack("<I", -)` raises for values at or above 2^32. -/
def mkMessageBytes (message : List Nat) : Except EncodeError (List Nat) :=
  if message.length < 4294967296 then
    Except.ok (marker ++ packLE4 message.length ++ message)
  else Except.error EncodeError.structError

/-- `encode`: frame the message, check capacity, and embed the frame bits along
the pixel order.  File I/O and the RGB conversion are outside the model; the
result is the modified pixel buffer. -/
def encode (img : Image) (message : List Nat) (password : Option (List Nat)) :
    Except EncodeError Image :=
  match mkMessageBytes message with
  | Except.error e => Except.error e
  | Except.ok message_bytes =>
    let required_bits := message_bytes.length * 8
    let available_bits := img.width * img.height * 3
    if available_bits < required_bits then
      Except.error (EncodeError.capacityError required_bits available_bits)
    else
      Except.ok (Image.mk img.width img.height
        (embedLoop img.width img.pixels
          (pixelCoords img.width img.height password)
          (bytesToBits message_bytes)))

/-- The three least-significant channel bits of the pixel at coordinate `c`,
in the fixed order red, green, blue. -/
def pixBits (img : Image) (c : Nat × Nat) : List Nat :=
  let p := img.pixels.getD (coordIdx img.width c) (0, 0, 0)
  [extractBit p.1, extractBit p.2.1, extractBit p.2.2]

/-- The bit-collection loop of `_decode_image`: before each pixel, stop if
enough bits are already collected, otherwise append the pixel's three LSBs. -/
def readBitsUntil (img : Image) : List (Nat × Nat) → List Nat → Nat → List Nat
  | [], acc, _ => acc
  | c :: cs, acc, needed =>
    if needed ≤ acc.length then acc
    else readBitsUntil img cs (acc ++ pixBits img c) needed

/-- The header-scan bits: read until at least `(7 + 4) * 8` bits are collected. -/
def extractedHeader (img : Image) (password : Option (List Nat)) : List Nat :=
  readBitsUntil img (pixelCoords img.width img.height password) [] 88

/-- The 11 header bytes reassembled from the header-scan bits. -/
def headerBytes (img : Image) (password : Option (List Nat)) : List Nat :=
  bytesFromBits (extractedHeader img password) 11

/-- The message length parsed from header bytes 7..10, little-endian. -/
def parsedLength (img : Image) (password : Option (List Nat)) : Nat :=
  unpackLE4 (((headerBytes img password).drop 7).take 4)

/-- The body-scan bits: continue the same coordinate sequence from where the
header scan stopped (`start_idx = len(extracted_bits) // 3`) until
`total_bits_needed` bits are collected. -/
def extractedBody (img : Image) (password : Option (List Nat)) (total_bits_needed : Nat) :
    List Nat :=
  let extracted := extractedHeader img password
  if extracted.length < total_bits_needed then
    readBitsUntil img
      ((pixelCoords img.width img.height password).drop (extracted.length / 3))
      extracted total_bits_needed
  else extracted

/-- `_decode_image`: one decode attempt for one password candidate.  Every
internal failure — marker mismatch, the `struct.error` from unpacking a short
header (caught by the surrounding `try`), an implausible length, or too few
recoverable bits — returns `none`. -/
def decodeImage (img : Image) (password : Option (List Nat)) : Option (List Nat) :=
  let header_bytes := headerBytes img password
  if 7 ≤ header_bytes.length ∧ header_bytes.take 7 = marker then
    if header_bytes.length < 11 then none
    else
      let message_length := parsedLength img password
      if message_length = 0 ∨ img.width * img.height < message_length then none
      else
        let all_bytes := bytesFromBits
          (extractedBody img password ((11 + message_length) * 8))
          (11 + message_length)
        if 11 + message_length ≤ all_bytes.length then
          some ((all_bytes.drop 11).take message_length)
        else none
  else none

/-- Python truthiness of a decode attempt result (`if result:`): an absent or
empty payload is falsy. -/
def pyTruthyBytes (r : Option (List Nat)) : Bool :=
  match r with
  | some m => !m.isEmpty
  | none => false

/-- Python truthiness of the password argument (`if password:`). -/
def pyTruthyPw (pw : Option (List Nat)) : Bool :=
  match pw with
  | some p => !p.isEmpty
  | none => false

/-- `decode`: try the supplied password; if that attempt produced nothing and a
truthy password was supplied, retry once with no password; otherwise `None`. -/
def decode (img : Image) (password : Option (List Nat)) : Option (List Nat) :=
  let result := decodeImage img password
  if pyTruthyBytes result then result
  else if pyTruthyPw password then
    let result2 := decodeImage img none
    if pyTruthyBytes result2 then result2 else none
  else none

/-! ### Concrete instances used by the theorems

`litL0` through `litCoords` are kernel-checked snapshots of the MT19937
pipeline for the seed derived from the password bytes `[99, 99, 106]`
(the string `ccj`); they stage the deep sequential recurrences of the
generator into flat literals so that the kernel can evaluate the
password-decode path.  `imgC4pixels` is a 12 x 12 carrier and
`stegoC4pixels` the buffer produced by encoding the message `hi` into it
with no password. -/

def litL0 : List Nat := [19650218, 2194844435, 874550967, 1417962806, 719805879, 2188372024, 721660136, 1814940559, 2833403150, 3889680837, 1003665704, 1330738387, 2892331238, 3489052161, 3855278296, 3311200630, 1422571577, 2585306665, 2882769417, 2783805802, 4207719964, 2400416080, 2341377904, 2590753297, 3924081815, 1211472509, 3057012486, 3436335279, 551149560, 1318655221, 1900533858, 3537525294, 2107812065, 3148644481, 594136785, 1814262168, 1224061569, 653651109, 254650943, 2832785922, 3699583528, 2088609312, 3529585711, 41492871, 2876012911, 4240588078, 1402615791, 1934126869, 3096545044, 2890863071, 80499043, 970921794, 3007610686, 750866145, 799115259, 3629971774, 2864380489, 3888374480, 2087741561, 3146346387, 3269762417, 2727485495, 2488668711, 2964190680, 2116659522, 4141458096, 3537107937, 3667677805, 2429248426, 2452306317, 3015982257, 499957222, 2360410630, 4194693085, 147288288, 3359074475, 1635136148, 4073107990, 3628367767, 3898116531, 275612352, 2842514961, 3115851985, 3103448722, 302309156, 22171017, 2075519075, 3671007489, 3949991970, 1963601502, 4167967445, 804406473, 1055110313, 3894654986, 2278780139, 34711884, 4121261916, 3468881884, 2287991389, 393453278, 548699130, 1499706375, 332872900, 1556864443, 1043137738, 4174970395, 1614747618, 669116410, 1897615374, 3255278936, 1370736725, 1550777747, 1685794058, 1862314184, 2400528575, 2672900100, 1647333586, 3524644532, 1765506473, 2857335743, 3636393737, 2932986219, 1203228647, 1628511289, 3647085204, 2987412752, 2905279128, 2631768385, 4014428911, 1727529885, 1124854030, 2262104686, 2499713312, 2421398767, 4134715143, 2358935835, 1002066021, 340444514, 3268366900, 1112268606, 1897974631, 3331577291, 2922602614, 3423543891, 1267030560, 2344564886, 1942259446, 3179572998, 1573187880, 1205933762, 3025229445, 4246102746, 346693941, 2002220930, 1829519945, 3309743875, 1904872348, 955816590, 2796353700, 668528669, 2648785169, 2704726048, 893089804, 738773343, 2832484895, 2050343702, 104744889, 3439545764, 980222603, 422274176, 3865519914, 2026267864, 539814729, 4137805178, 1140607595, 2537690753, 3971218783, 1931293181, 3089667358, 1133695167, 399772074, 3682192071, 4293649418, 1029228868, 3902327948, 1974090788, 3344730195, 2795804747, 3396216457, 366677807, 416687433, 930072460, 901228284, 1521860141, 3484259358, 478803252, 3138556488, 4137898487, 3807832586, 3773310804, 3221624091, 3076008769, 4156878137, 406561453, 3897607181, 623564883, 2247148685, 1696011322, 2911604503, 3979653402, 742342831, 3881512158, 2282092805, 2681274264, 3681829528, 46152446, 3126539534, 3635632789, 1012335624, 3686064131, 2587648220, 2008745587, 2556071384, 1788453345, 861781568, 2727104545, 758340017, 1880693944, 2136364769, 1370367813, 798286522, 506003017, 2520802485, 2991500316, 3489134272, 3275208410, 1640252809, 3797759893, 4271912220, 3111882026, 140581304, 2568658569, 2686841033, 3059852298, 293994524, 1890650113, 1797269750, 3428669802, 1401714789, 2643788909, 3727894469, 2833360921, 1622853283, 3832221927, 277065458, 3711010937, 4192871202, 3356722694, 680496635, 2574997514, 1476265004, 3232676806, 3318710975, 4210635059, 4159903992, 2116300560, 2532158399, 718792604, 2539969944, 3164133583, 2649636591, 2200349072, 2851998122, 670873689, 2613796143, 3562264788, 1174445287, 1149173203, 2225964784, 4266377361, 3119455410, 1518371465, 1816545474, 2516586762, 240910660, 2681595121, 1301176317, 3127753611, 862342957, 771183330, 438085196, 1046497567, 922186079, 1222939296, 51184555, 1757804190, 426665187, 2730510776, 2573705612, 1312406577, 667742236, 3239950393, 2582034960, 3759737929, 1601926242, 2947737408, 975540284, 1285948639, 3761027786, 1226457986, 34782949, 2916146832, 142734034, 569716755, 4042990521, 3947471773, 1575951506, 3517313596, 3100986137, 2199197158, 3376719924, 4087139828, 3705107125, 1482533137, 1541227668, 1678953742, 2056318769, 3045003063, 1622629937, 487578169, 4137196231, 3764647071, 2241527512, 2558474063, 1038354351, 2094837850, 2481932343, 3229539130, 3756851151, 1006180559, 4181103103, 3565909441, 2371373280, 1493415041, 160348120, 1285104017, 3595587370, 4264242568, 1161124915, 2042766103, 737713932, 3481808155, 478389208, 1300643225, 1007986266, 1168231653, 3652705112, 2909421388, 3924670764, 1731016690, 4084014919, 4205099837, 1373900512, 2937538864, 2730075174, 957417377, 3258199283, 87174175, 792789163, 2527971304, 2716998340, 3091367825, 97659251, 1782441684, 919015551, 735476370, 87326482, 926205331, 1888657273, 3715638227, 1715499660, 1922410526, 4175228089, 1525608673, 3578587616, 2042086160, 3730509879, 3607443975, 3879209240, 3652717612, 2372597521, 3471943430, 2765853569, 3643232056, 3297105617, 2692883557, 1805942063, 1394934451, 3337180104, 1181922214, 2331394419, 306465830, 3736887952, 1729663122, 3390355091, 2379159653, 3851731257, 4021176185, 1079541434, 433656928, 1831627642, 2892512290, 4063025724, 406246264, 1293199350, 1120564498, 3926678815, 1350089133, 4273098366, 3385122292, 993379095, 725502136, 25504318, 752278045, 3729298457, 2392480235, 2657233815, 320925812, 2950230896, 989728679, 506301841, 1404204260, 1413065993, 865242585, 866785615, 1859142878, 589268143, 775553472, 1410495094, 1607063978, 3888932143, 704411669, 3513884419, 3370826939, 2896358996, 439226283, 2352722741, 1626809714, 246502175, 189424636, 1337937966, 3719088974, 4178799653, 2794717891, 1831166187, 1862432793, 2263235392, 3847861459, 802662362, 3621709005, 2634319122, 3245216029, 1466421412, 1528864744, 349292989, 3152395874, 3374677426, 2279952808, 1238578150, 107682552, 913857966, 3747681661, 3560958606, 3617063034, 1988620951, 1854864649, 1862999556, 2962654934, 1498851202, 2003448718, 2942754891, 798789550, 3882536840, 3338815162, 3066948065, 2057094004, 4171611151, 4284063395, 2325690120, 2659914459, 165909127, 2783186990, 2161504072, 343671839, 2751150377, 3621950182, 222528329, 3219381950, 238911006, 2710753737, 2982111755, 1115859074, 156211365, 228231184, 2302165064, 933165355, 4181545713, 2201173365, 291303663, 19134280, 3581811046, 68817880, 1037069880, 2445243929, 2507869609, 1468655994, 2646143627, 2709652242, 559859542, 2657856757, 248278651, 656698256, 2682159578, 3542996035, 2775252812, 1761180115, 3646714856, 2330951878, 834843492, 3951905925, 744286448, 3621804227, 2822882772, 1168938371, 3349647456, 672527398, 1163635478, 3445281068, 722448549, 3543924788, 2823456463, 1931863550, 2483173049, 4148604134, 3081487737, 2916138664, 940193076, 4142650279, 2563327448, 3737140007, 2407111514, 243557343, 1657192483, 3995730323, 1012445178, 2365602253, 2830079959, 2287658550, 2893719730, 2373631903, 4215513121, 189686171, 2003138393, 3410898923, 1020530876, 1103312993, 1976606742, 899447370, 1949555562, 3167671920, 595304244, 1919198655, 2929333298, 619161901, 623498751, 2063591130, 763251111, 4291719204, 3951567013, 2998385089, 758818611, 1375945828, 2510752543, 4188334520, 121785359, 3225750324, 1354685949, 1643999927, 911976986, 518523023, 3993561529, 2326708913, 336174575, 853096604, 2873283550, 4022490143, 3010604384, 2080594943, 1702902668, 3360749048, 4184957279, 2421794725, 4155016765, 3104188113, 1576615579, 604774175, 2739462297, 4096823942, 1932918233, 1779286169, 2544260698, 1430072091, 2196303270, 4237199385, 2613550760, 1481676153, 2920297152, 2463881971, 1098865791, 2939219489, 2494804283, 3108728554, 1635052534, 2905164258]
def litRA : List Nat := [1535861187, 3940297855, 126494604, 3164139453, 3399550621, 2403351296, 685529255, 2318573447, 2144083478, 1447911445, 863700457, 4114657861, 3352469409, 2849415156, 1677140506, 3876527480, 2493546280, 2654665533, 330282347, 2674771589, 332072861, 2334441371, 1297140454, 1667777342, 3154802272, 1299552782, 1963324542, 1841902493, 3801950763, 2884314236, 2232790106, 2701185195, 3070543398, 81789207, 1395630533, 2767803527, 1000930422, 1755240403, 1632279482, 2560399465, 3613348193, 1790538215, 3359483195, 3523486409, 2769343870, 4288569525, 1343445565, 2321371690, 4080035305, 3978858899, 2982423332, 832275426, 3427092653, 2564545343, 2032656697, 4286750115, 3939400706, 2375037574, 2229313337, 1702519456, 2326814764, 2106948739, 72041300, 368222744, 3303588250, 3526920502, 2670567406, 3454049640, 482013684, 2105546215, 4068398426, 2140447125, 3697744747, 1468726458, 2771752934, 1325011986, 3394075891, 3714375609, 4231547347, 3187373410, 1099348995, 1129107677, 795014608, 558226630, 1888333721, 2260200173, 646471988, 2127435672, 180838061, 517338670, 1350953137, 1884527723, 4274711930, 3631251936, 3736468445, 4226130220, 616324817, 27346130, 1953500294, 1131114291, 2882108831, 2991467087, 1688102500, 1654377981, 659651561, 1283362633, 3328993636, 1033276487, 1770147029, 4083150499, 452885445, 436552221, 208837059, 473432170, 2987381112, 186697714, 1357231632, 1558696326, 2101440118, 1263421716, 3858177420, 2650803638, 1595788847, 1783115476, 1697827795, 1097426756, 1474526674, 3876552554, 2604180954, 1091169032, 265672493, 3959724667, 3543043337, 1509814935, 1504439447, 1864429581, 2100860432, 2845740795, 3726704557, 1890376899, 1027583011, 1074931651, 4005350043, 3332758442, 1892654357, 366136580, 4283352644, 1194197701, 3430384968, 232015964, 9473672, 4224034287, 644373392, 1909890091, 2877316403, 3790054131, 4058567888, 3432476709, 3855580677, 2545345393, 3289702153, 2497613728, 3411244663, 3910781453, 4263341490, 2906957910, 3066274290, 2357998541, 1943262997, 134421312, 2458377898, 3459001811, 3648073468, 1436946090, 3267251776, 332574282, 3880107089, 2948596038, 729436381, 484014245, 2588044472, 1899142538, 3451192157, 1764797276, 1585534383, 3522198935, 1947867361, 3480550907, 1116017353, 2132138355, 2945517912, 72960896, 3534406591, 1907074212, 2112505703, 1767845496, 2190220260, 726285494, 2958431868, 262645135, 3509297428, 2808352036, 440321109, 3353897582, 1559586284, 1388951446, 1077330083, 2866033471, 856928533, 4087772368, 1505920123, 3550021449, 1312324972, 3171608099, 3300542309, 4035430706, 2322022394, 2980471714, 745703221, 3923964799, 3206617937, 1694060801, 2440631539, 4200398991, 3423795023, 2564548479, 3901025267, 208283107, 705417684, 3598669200, 1103391824, 340589242, 4189639552, 2441507193, 624741367, 3317684244, 3545066704, 642254269, 3860819397, 1103939272, 488900814, 1850986193, 3801881772, 4025911057, 1185638397, 3198213964, 3047263150, 3308077035, 838992567, 2705293984, 1157357109, 1256201753, 1239310321, 75114964, 2107996111, 1470980710, 1224992591, 1299756831, 3481301150, 1045010919, 2687875471, 3366219944, 2869707694, 898975574, 2957321312, 4152403799, 1571973354, 3719135369, 2820322271, 2088134376, 1692794455, 2358673414, 418969727, 2210905454, 1853675194, 1881886122, 682182286, 1044449240, 2228292987, 1059475881, 2222936366, 1784629264, 1295570921, 97501086, 3012076553, 903102852, 1705683025, 133069647, 3070642163, 614097795, 2234175178, 2448529801, 1071912129, 2193770616, 2758808766, 1831070081, 1637739082, 3034103381, 3413196908, 4103202769, 1280844197, 990252886, 1690984233, 2959477116, 2180554808, 3506898656, 3068471146, 3965002388, 1640366139, 1054865449, 1670547095, 4164535134, 4013040060, 4133636892, 1170006304, 4050575441, 3852745256, 3664033096, 3300612923, 2702815742, 2605388874, 2000559407, 1528479321, 3776599806, 1806257641, 1323164683, 1986525127, 518225745, 339853110, 1867971467, 1551929007, 3150365728, 3606253319, 1616229549, 805330168, 2527795393, 1508409583, 1888090091, 979247679, 2242354910, 516171007, 985958949, 3986935154, 3367902071, 779425159, 652674819, 2818373825, 926312422, 895427019, 501767765, 4213824860, 1830489117, 2389397767, 925832493, 1083909566, 1831352317, 27351186, 1230137944, 4044702601, 404540759, 2523202664, 1557910420, 3021319603, 2016496621, 1843412335, 2326869623, 1496294912, 4075564216, 3032504489, 876351613, 3851647962, 3721871752, 1621469421, 3121013653, 2635274827, 2124967097, 1826908381, 307280999, 4265873658, 852211771, 723111155, 3748802304, 2420030936, 1683276292, 95515491, 4177442370, 2531620188, 3349330160, 756650637, 2736898122, 2829921472, 2806733421, 3700946605, 1853711385, 1410849135, 3325295563, 1784337325, 3763891334, 3670510457, 309020755, 136137251, 3905957737, 1573555458, 1390036422, 3433112976, 4246279008, 2936439184, 3195082466, 1264899346, 4277493919, 3864693728, 4188974797, 2643885856, 2290941790, 2855027408, 2205132231, 1687070910, 4019600863, 872966634, 3377575943, 1206390942, 426537023, 3048828736, 2155527765, 3859637650, 3392085468, 1110771257, 327003066, 1242313703, 183640913, 2230828555, 2903959950, 3866329559, 2968022685, 1740248287, 2909822971, 914058359, 957019791, 1678638843, 3313386415, 937027515, 4108071310, 626878116, 3926374418, 1363962248, 3380058834, 3185467393, 3966277962, 164369755, 109010883, 252222907, 3164291180, 2027582311, 2066757847, 3355358937, 1660188260, 1949126148, 436906925, 3708459286, 1418983701, 2933778219, 3842644931, 1634979642, 2632590932, 376954958, 1647862358, 3849474517, 3567169610, 2533911391, 271856681, 3289465210, 1241168829, 2256455944, 3892714279, 254778863, 2712041785, 739542843, 586961039, 3079437023, 1104151428, 459996289, 2798407447, 3153034429, 4014726756, 3206344289, 3619522842, 2146159352, 716770239, 4046715002, 2375655092, 2620250914, 1964599290, 2303305138, 957155563, 2110447387, 1761250093, 1553833876, 1965055649, 275560443, 199986118, 3028331934, 3334584411, 2793290874, 2097347170, 655239230, 3505800681, 1862815145, 4070205817, 2179356812, 749298274, 3041358132, 3822355864, 916018392, 265726819, 2706712463, 3261405876, 3190201963, 4262231573, 191946749, 3211107252, 2883542976, 3887202578, 1949589424, 343602883, 2774833222, 3694721198, 4231226913, 3479134448, 1203849956, 828128099, 904234710, 1326002460, 2574578188, 488285928, 2845406720, 1767684382, 3995494865, 3969061665, 72866976, 3384396545, 3349436150, 3958085338, 3204910069, 1989613828, 1660179963, 1511793816, 102390388, 2558517838, 1859606285, 3199598808, 2723994847, 244112684, 4105902785, 121987122, 1186877273, 3732068545, 226558974, 847980390, 2999284675, 1388297982, 2817885562, 1882929235, 1547501523, 543101224, 3478474619, 2389233952, 3144067330, 4106331772, 3227529237, 1162674748, 1974019768, 3851555177, 106237793, 4022669348, 2613187891, 3194890476, 3438080068, 155039056, 3448374499, 653013093, 4179840855, 1044368493, 3472064067, 967507297, 1767629035, 413258289, 2101319900, 4075737909, 1550355779, 654567925, 1174148562, 2417363050, 877215206, 2794943362, 1459216817, 331419810, 1296406487, 2070944356, 2806298859, 1939648668, 2029222510, 1213681584, 3816886078, 2272166548, 3913863827, 736315867, 1349380267, 1205455245, 3439795351, 4204238320, 3977485406, 4186598193, 303312293, 1301735899, 208830845, 2760879019, 736898936, 367115641, 2113377046, 1340173090, 1221092415, 2439084258, 81232532]
def litRB : List Nat := [4225678843, 2999762257, 1300376830, 2547200769, 3159226921, 398283593, 3660636482, 3575855018, 3950565550, 3954208413, 3250314247, 1126262312, 141233867, 737815806, 176076606, 3765209677, 3296727529, 689875494, 3051750503, 3356595503, 891945393, 3875868444, 984911597, 3510985928, 4019676927, 3678634231, 1297051581, 3024028394, 819673558, 1801498389, 3994304047, 4057640281, 1958101875, 3365412892, 2951009688, 1067065231, 4219981714, 1617560680, 3687602140, 899935857, 1162157128, 3498733259, 4286606837, 385818947, 2686574764, 1413432428, 1070103547, 562190013, 2589214160, 1587329739, 892001308, 3645457260, 2591491262, 67179230, 3027789309, 2940718688, 1032032242, 2644553480, 1503993366, 852704258, 1678687755, 1950032999, 2631539686, 2105085229, 1815191336, 2738524544, 3157025502, 577406195, 423522546, 1750802393, 1877571941, 637610710, 1338172554, 4260770790, 2801648639, 969788629, 2344986722, 3294610404, 108380657, 4112376517, 2478254705, 918209852, 3089283094, 2047398952, 1165106538, 1900991660, 147177601, 3559236335, 3250232536, 1821844347, 461873389, 361873822, 1115860056, 437234017, 3298352905, 4201001410, 2131503253, 79975039, 3146575300, 2249010204, 2822282035, 619623114, 1714158055, 2185757166, 2834131179, 2228522782, 312878559, 4031203521, 235856827, 3257932179, 3462268765, 723151716, 2216929708, 3138173547, 3849603371, 146547299, 1024099091, 3264768146, 1861334185, 3250873163, 3273870948, 3657045265, 4211292242, 4119066793, 2162953688, 2859837521, 3243705941, 1752077235, 3959947184, 1817429295, 1525178073, 3359784364, 2570430742, 2926738412, 1667624547, 1718539313, 1592870785, 1428375970, 910381568, 455800214, 3033100639, 2588144027, 2754723687, 915129403, 1579858097, 988588705, 2742205868, 4284861017, 1159985992, 3056224174, 159190683, 3756308254, 2390122688, 2624446238, 3707410531, 1903356051, 3998906145, 2480867280, 4259051531, 102886272, 3734955390, 2886737539, 358472004, 943967681, 2005618637, 4004093415, 3498714257, 2539152358, 3598659338, 2353573500, 1586981817, 2970306743, 3968071701, 4293565503, 3369507126, 1247249415, 3330693222, 1942873425, 1139052417, 760574083, 4226160751, 1067402506, 2565996790, 3948906802, 1677116936, 2984319921, 991355560, 3965564356, 2500205874, 978557417, 4043075501, 1822509400, 2342971127, 1620206091, 2201171142, 1790322155, 564739870, 1963795939, 2127957213, 1243948815, 1221136088, 3418647037, 2024984716, 3283464832, 2154641515, 3253109759, 1055904899, 2182760681, 4195887253, 1659105410, 3625190162, 375328004, 3791366113, 1486533752, 51982007, 3847484400, 2210024355, 3080373717, 2139175120, 1401814343, 3915431617, 907512730, 4116426861, 4258963784, 356957190, 1972083402, 763522576, 1102302367, 2653343968, 565146259, 1119550813, 2806921699, 2351198418, 1310570748, 2963046873, 163858378, 1519584289, 2082565238, 3811614795, 1423072181, 4143653859, 1611913945, 2384336693, 415850841, 1413899099, 3842415157, 1422595501, 2583818610, 3731067542, 384591105, 831748480, 2952343412, 3974029660, 240125877, 3612815887, 2494604530, 952620205, 340305628, 2225786919, 3021310737, 3157221073, 2646128778, 1766318582, 1219520010, 1883806454, 3842189198, 1067296796, 16790470, 1194756328, 219641771, 2794622561, 751899999, 2466757891, 3849963980, 1273187565, 2688039549, 3269135789, 1048105414, 1988563871, 3141457247, 1959060359, 2424262940, 3998872620, 1471315557, 2142791634, 3187813967, 244737806, 1495073876, 1822342632, 2113708036, 599015500, 2495788056, 1095328532, 4001917392, 1508685718, 2573631664, 2690240837, 134765892, 2378256089, 3238339477, 2448388682, 1670344722, 647987155, 4012137942, 1803856311, 1592385649, 2851569008, 2570543756, 3270705913, 3623840510, 1861047895, 1646386969, 1977435690, 647161244, 1697556897, 1428616395, 2631726012, 1852770190, 3322482773, 1917400675, 1411888707, 1061814032, 1110771306, 2525424537, 3215849446, 1778150892, 3697045896, 3165059736, 1102349823, 449398862, 3082625946, 1925291186, 727037412, 3438530749, 2473827047, 948367973, 3860565472, 3249477725, 2268608628, 950172444, 878070483, 228055542, 3530525217, 1170530196, 1319967344, 2357342201, 4219752325, 590216888, 1549481839, 30163931, 3987579162, 268070777, 3116611374, 3243707519, 2358736301, 3127781940, 933466544, 959858834, 270346597, 2329292360, 2177474876, 377284954, 3805979651, 4205742082, 1119683492, 2120916906, 879163999, 2667184993, 2914911744, 1719143837, 733368720, 4128437192, 1453820428, 3365247731, 2920159889, 2975998633, 1543649430, 784744174, 49919073, 3570735161, 3445105252, 2363867388, 2548812466, 2519069330, 1909609232, 1124627558, 2958254031, 276334311, 2551538915, 2686703998, 3566238201, 3552389510, 3147430614, 2412169024, 3867051829, 3518986326, 356567681, 3541852941, 3298878789, 639253292, 1900679587, 2393990741, 900519681, 2280094304, 74411060, 4203965309, 514310844, 552549285, 2877849068, 1867735403, 3382136963, 1090403331, 2166242294, 829906933, 3506783694, 2952556222, 885127249, 3745159548, 55523960, 1135159329, 3974775545, 922960955, 3722922090, 3483758678, 1308812203, 520365184, 2601405326, 2311381038, 1098282079, 3486337902, 1467750111, 2161904784, 490492757, 3086881187, 3126263498, 3406982890, 3701256364, 149242681, 200620570, 2128997440, 1334423409, 122249177, 2492602835, 4023173696, 775724543, 2810554587, 1718216727, 2811270708, 3629500619, 2509525392, 593834802, 3560122904, 3009706922, 410498506, 3836415758, 2316152668, 1239715825, 920551131, 3395488422, 2538548069, 3762230674, 2969759808, 1671857294, 681840468, 2278869152, 350308972, 3052777218, 3237699210, 4088174926, 1104939332, 4234846892, 2113010474, 3785779702, 3225962347, 3467631445, 2266872824, 3242702159, 2841030212, 1949482554, 603842789, 4136989804, 1941456531, 3984507418, 3974285015, 602931928, 2392304601, 349682672, 3617295329, 949515956, 3528935483, 4277960694, 957949230, 2464590815, 3967815739, 2859352901, 1542292902, 2911844176, 450292910, 3505803116, 2079732832, 304802600, 1881358523, 1325366024, 1438598074, 896664116, 3422901554, 2343459888, 586144569, 971509793, 3572447026, 1222959821, 755722403, 697196586, 2726795034, 2762849480, 727430612, 2512692395, 3496240201, 2853839486, 2557980451, 3021275149, 2672653136, 1093071245, 415286893, 3799744161, 907643836, 1154241484, 441717236, 3918964757, 2392965733, 399420587, 2405828710, 758463366, 1224427975, 4011729384, 1429442893, 3352265667, 2403329093, 2973127654, 3556749285, 2526662470, 1587525634, 325198091, 713315723, 3714849325, 3317109295, 994568942, 3379150022, 3931663931, 296171168, 2788011492, 1178232150, 3720173111, 2313121714, 3577312901, 2996274419, 3359991621, 306295086, 777084328, 172076033, 1100897540, 4136145911, 3427321912, 2950841607, 1142824611, 659726513, 510665841, 3116337479, 3449592523, 1983548437, 1067060305, 1662768983, 2494739596, 3264758006, 2027982085, 1180974223, 2416003348, 1833615626, 922423278, 195087212, 809248683, 3187539693, 1784914402, 1181154587, 1012869417, 4207089318, 1729450720, 631852601, 1189028922, 1140932422, 2639759897, 3615954416, 2502551563, 4100230377, 1700770972, 1502483665, 1252735518, 209746297, 346041545, 4251562442, 3355707043, 1672376259, 1751051458, 457283871, 1867412866, 799511205, 1689106740, 978764317, 2551168799, 685815500, 4018308841, 3525600146, 3705006216, 3087184963, 13090982, 1620380061, 356893067, 915686742, 1381262688, 744999949, 794289749, 1898021294]
def litState : List Nat := [2147483648, 404782929, 4225678843, 2999762257, 1300376830, 2547200769, 3159226921, 398283593, 3660636482, 3575855018, 3950565550, 3954208413, 3250314247, 1126262312, 141233867, 737815806, 176076606, 3765209677, 3296727529, 689875494, 3051750503, 3356595503, 891945393, 3875868444, 984911597, 3510985928, 4019676927, 3678634231, 1297051581, 3024028394, 819673558, 1801498389, 3994304047, 4057640281, 1958101875, 3365412892, 2951009688, 1067065231, 4219981714, 1617560680, 3687602140, 899935857, 1162157128, 3498733259, 4286606837, 385818947, 2686574764, 1413432428, 1070103547, 562190013, 2589214160, 1587329739, 892001308, 3645457260, 2591491262, 67179230, 3027789309, 2940718688, 1032032242, 2644553480, 1503993366, 852704258, 1678687755, 1950032999, 2631539686, 2105085229, 1815191336, 2738524544, 3157025502, 577406195, 423522546, 1750802393, 1877571941, 637610710, 1338172554, 4260770790, 2801648639, 969788629, 2344986722, 3294610404, 108380657, 4112376517, 2478254705, 918209852, 3089283094, 2047398952, 1165106538, 1900991660, 147177601, 3559236335, 3250232536, 1821844347, 461873389, 361873822, 1115860056, 437234017, 3298352905, 4201001410, 2131503253, 79975039, 3146575300, 2249010204, 2822282035, 619623114, 1714158055, 2185757166, 2834131179, 2228522782, 312878559, 4031203521, 235856827, 3257932179, 3462268765, 723151716, 2216929708, 3138173547, 3849603371, 146547299, 1024099091, 3264768146, 1861334185, 3250873163, 3273870948, 3657045265, 4211292242, 4119066793, 2162953688, 2859837521, 3243705941, 1752077235, 3959947184, 1817429295, 1525178073, 3359784364, 2570430742, 2926738412, 1667624547, 1718539313, 1592870785, 1428375970, 910381568, 455800214, 3033100639, 2588144027, 2754723687, 915129403, 1579858097, 988588705, 2742205868, 4284861017, 1159985992, 3056224174, 159190683, 3756308254, 2390122688, 2624446238, 3707410531, 1903356051, 3998906145, 2480867280, 4259051531, 102886272, 3734955390, 2886737539, 358472004, 943967681, 2005618637, 4004093415, 3498714257, 2539152358, 3598659338, 2353573500, 1586981817, 2970306743, 3968071701, 4293565503, 3369507126, 1247249415, 3330693222, 1942873425, 1139052417, 760574083, 4226160751, 1067402506, 2565996790, 3948906802, 1677116936, 2984319921, 991355560, 3965564356, 2500205874, 978557417, 4043075501, 1822509400, 2342971127, 1620206091, 2201171142, 1790322155, 564739870, 1963795939, 2127957213, 1243948815, 1221136088, 3418647037, 2024984716, 3283464832, 2154641515, 3253109759, 1055904899, 2182760681, 4195887253, 1659105410, 3625190162, 375328004, 3791366113, 1486533752, 51982007, 3847484400, 2210024355, 3080373717, 2139175120, 1401814343, 3915431617, 907512730, 4116426861, 4258963784, 356957190, 1972083402, 763522576, 1102302367, 2653343968, 565146259, 1119550813, 2806921699, 2351198418, 1310570748, 2963046873, 163858378, 1519584289, 2082565238, 3811614795, 1423072181, 4143653859, 1611913945, 2384336693, 415850841, 1413899099, 3842415157, 1422595501, 2583818610, 3731067542, 384591105, 831748480, 2952343412, 3974029660, 240125877, 3612815887, 2494604530, 952620205, 340305628, 2225786919, 3021310737, 3157221073, 2646128778, 1766318582, 1219520010, 1883806454, 3842189198, 1067296796, 16790470, 1194756328, 219641771, 2794622561, 751899999, 2466757891, 3849963980, 1273187565, 2688039549, 3269135789, 1048105414, 1988563871, 3141457247, 1959060359, 2424262940, 3998872620, 1471315557, 2142791634, 3187813967, 244737806, 1495073876, 1822342632, 2113708036, 599015500, 2495788056, 1095328532, 4001917392, 1508685718, 2573631664, 2690240837, 134765892, 2378256089, 3238339477, 2448388682, 1670344722, 647987155, 4012137942, 1803856311, 1592385649, 2851569008, 2570543756, 3270705913, 3623840510, 1861047895, 1646386969, 1977435690, 647161244, 1697556897, 1428616395, 2631726012, 1852770190, 3322482773, 1917400675, 1411888707, 1061814032, 1110771306, 2525424537, 3215849446, 1778150892, 3697045896, 3165059736, 1102349823, 449398862, 3082625946, 1925291186, 727037412, 3438530749, 2473827047, 948367973, 3860565472, 3249477725, 2268608628, 950172444, 878070483, 228055542, 3530525217, 1170530196, 1319967344, 2357342201, 4219752325, 590216888, 1549481839, 30163931, 3987579162, 268070777, 3116611374, 3243707519, 2358736301, 3127781940, 933466544, 959858834, 270346597, 2329292360, 2177474876, 377284954, 3805979651, 4205742082, 1119683492, 2120916906, 879163999, 2667184993, 2914911744, 1719143837, 733368720, 4128437192, 1453820428, 3365247731, 2920159889, 2975998633, 1543649430, 784744174, 49919073, 3570735161, 3445105252, 2363867388, 2548812466, 2519069330, 1909609232, 1124627558, 2958254031, 276334311, 2551538915, 2686703998, 3566238201, 3552389510, 3147430614, 2412169024, 3867051829, 3518986326, 356567681, 3541852941, 3298878789, 639253292, 1900679587, 2393990741, 900519681, 2280094304, 74411060, 4203965309, 514310844, 552549285, 2877849068, 1867735403, 3382136963, 1090403331, 2166242294, 829906933, 3506783694, 2952556222, 885127249, 3745159548, 55523960, 1135159329, 3974775545, 922960955, 3722922090, 3483758678, 1308812203, 520365184, 2601405326, 2311381038, 1098282079, 3486337902, 1467750111, 2161904784, 490492757, 3086881187, 3126263498, 3406982890, 3701256364, 149242681, 200620570, 2128997440, 1334423409, 122249177, 2492602835, 4023173696, 775724543, 2810554587, 1718216727, 2811270708, 3629500619, 2509525392, 593834802, 3560122904, 3009706922, 410498506, 3836415758, 2316152668, 1239715825, 920551131, 3395488422, 2538548069, 3762230674, 2969759808, 1671857294, 681840468, 2278869152, 350308972, 3052777218, 3237699210, 4088174926, 1104939332, 4234846892, 2113010474, 3785779702, 3225962347, 3467631445, 2266872824, 3242702159, 2841030212, 1949482554, 603842789, 4136989804, 1941456531, 3984507418, 3974285015, 602931928, 2392304601, 349682672, 3617295329, 949515956, 3528935483, 4277960694, 957949230, 2464590815, 3967815739, 2859352901, 1542292902, 2911844176, 450292910, 3505803116, 2079732832, 304802600, 1881358523, 1325366024, 1438598074, 896664116, 3422901554, 2343459888, 586144569, 971509793, 3572447026, 1222959821, 755722403, 697196586, 2726795034, 2762849480, 727430612, 2512692395, 3496240201, 2853839486, 2557980451, 3021275149, 2672653136, 1093071245, 415286893, 3799744161, 907643836, 1154241484, 441717236, 3918964757, 2392965733, 399420587, 2405828710, 758463366, 1224427975, 4011729384, 1429442893, 3352265667, 2403329093, 2973127654, 3556749285, 2526662470, 1587525634, 325198091, 713315723, 3714849325, 3317109295, 994568942, 3379150022, 3931663931, 296171168, 2788011492, 1178232150, 3720173111, 2313121714, 3577312901, 2996274419, 3359991621, 306295086, 777084328, 172076033, 1100897540, 4136145911, 3427321912, 2950841607, 1142824611, 659726513, 510665841, 3116337479, 3449592523, 1983548437, 1067060305, 1662768983, 2494739596, 3264758006, 2027982085, 1180974223, 2416003348, 1833615626, 922423278, 195087212, 809248683, 3187539693, 1784914402, 1181154587, 1012869417, 4207089318, 1729450720, 631852601, 1189028922, 1140932422, 2639759897, 3615954416, 2502551563, 4100230377, 1700770972, 1502483665, 1252735518, 209746297, 346041545, 4251562442, 3355707043, 1672376259, 1751051458, 457283871, 1867412866, 799511205, 1689106740, 978764317, 2551168799, 685815500, 4018308841, 3525600146, 3705006216, 3087184963, 13090982, 1620380061, 356893067, 915686742, 1381262688, 744999949, 794289749, 1898021294]
def litPerm : List Nat := [136, 74, 79, 97, 78, 122, 66, 63, 75, 92, 133, 61, 100, 106, 98, 130, 108, 44, 86, 143, 105, 117, 77, 84, 56, 114, 99, 124, 140, 30, 80, 51, 120, 104, 139, 43, 70, 21, 54, 110, 2, 11, 13, 128, 132, 4, 69, 137, 12, 129, 9, 57, 39, 17, 59, 32, 35, 107, 115, 95, 135, 8, 62, 141, 31, 119, 68, 94, 23, 40, 15, 76, 72, 38, 138, 71, 134, 96, 19, 29, 22, 28, 90, 126, 26, 81, 36, 14, 10, 67, 93, 25, 64, 42, 85, 127, 49, 18, 123, 109, 55, 87, 58, 3, 113, 46, 34, 50, 47, 52, 89, 101, 60, 82, 53, 33, 73, 5, 41, 125, 7, 6, 65, 121, 142, 0, 48, 91, 118, 111, 131, 45, 88, 16, 20, 103, 37, 24, 27, 83, 112, 1, 102, 116]
def litCoords : List (Nat × Nat) := [(4, 11), (2, 6), (7, 6), (1, 8), (6, 6), (2, 10), (6, 5), (3, 5), (3, 6), (8, 7), (1, 11), (1, 5), (4, 8), (10, 8), (2, 8), (10, 10), (0, 9), (8, 3), (2, 7), (11, 11), (9, 8), (9, 9), (5, 6), (0, 7), (8, 4), (6, 9), (3, 8), (4, 10), (8, 11), (6, 2), (8, 6), (3, 4), (0, 10), (8, 8), (7, 11), (7, 3), (10, 5), (9, 1), (6, 4), (2, 9), (2, 0), (11, 0), (1, 1), (8, 10), (0, 11), (4, 0), (9, 5), (5, 11), (0, 1), (9, 10), (9, 0), (9, 4), (3, 3), (5, 1), (11, 4), (8, 2), (11, 2), (11, 8), (7, 9), (11, 7), (3, 11), (8, 0), (2, 5), (9, 11), (7, 2), (11, 9), (8, 5), (10, 7), (11, 1), (4, 3), (3, 1), (4, 6), (0, 6), (2, 3), (6, 11), (11, 5), (2, 11), (0, 8), (7, 1), (5, 2), (10, 1), (4, 2), (6, 7), (6, 10), (2, 2), (9, 6), (0, 3), (2, 1), (10, 0), (7, 5), (9, 7), (1, 2), (4, 5), (6, 3), (1, 7), (7, 10), (1, 4), (6, 1), (3, 10), (1, 9), (7, 4), (3, 7), (10, 4), (3, 0), (5, 9), (10, 3), (10, 2), (2, 4), (11, 3), (4, 4), (5, 7), (5, 8), (0, 5), (10, 6), (5, 4), (9, 2), (1, 6), (5, 0), (5, 3), (5, 10), (7, 0), (6, 0), (5, 5), (1, 10), (10, 11), (0, 0), (0, 4), (7, 7), (10, 9), (3, 9), (11, 10), (9, 3), (4, 7), (4, 1), (8, 1), (7, 8), (1, 3), (0, 2), (3, 2), (11, 6), (4, 9), (1, 0), (6, 8), (8, 9)]
def imgC4pixels : List (Nat × Nat × Nat) := ((((((((((((((((((((List.replicate 144 ((0, 0, 0) : Nat × Nat × Nat)).set 44 (1, 0, 0)).set 61 (0, 1, 0)).set 63 (0, 1, 0)).set 66 (0, 0, 1)).set 74 (0, 1, 0)).set 75 (0, 0, 1)).set 78 (1, 0, 1)).set 79 (1, 0, 1)).set 86 (1, 0, 1)).set 92 (0, 1, 0)).set 97 (1, 0, 0)).set 98 (1, 0, 0)).set 100 (0, 0, 1)).set 106 (0, 1, 1)).set 108 (1, 1, 1)).set 122 (0, 1, 1)).set 130 (0, 1, 0)).set 133 (1, 0, 1)).set 136 (1, 1, 0))
def stegoC4pixels : List (Nat × Nat × Nat) := [(1, 1, 0), (0, 1, 0), (1, 0, 1), (1, 0, 0), (1, 0, 1), (0, 1, 1), (0, 0, 1), (0, 1, 0), (0, 0, 1), (0, 1, 0), (1, 0, 1), (0, 1, 0), (0, 0, 1), (0, 1, 1), (1, 0, 0), (0, 1, 0), (1, 1, 1), (1, 0, 0), (1, 0, 0), (1, 0, 0), (0, 0, 0), (0, 0, 0), (0, 0, 0), (0, 0, 0), (0, 0, 0), (0, 0, 0), (0, 0, 0), (0, 0, 0), (0, 0, 0), (0, 0, 0), (0, 1, 0), (1, 1, 0), (1, 0, 0), (1, 0, 1), (1, 0, 0), (0, 0, 0), (0, 0, 0), (0, 0, 0), (0, 0, 0), (0, 0, 0), (0, 0, 0), (0, 0, 0), (0, 0, 0), (0, 0, 0), (1, 0, 0), (0, 0, 0), (0, 0, 0), (0, 0, 0), (0, 0, 0), (0, 0, 0), (0, 0, 0), (0, 0, 0), (0, 0, 0), (0, 0, 0), (0, 0, 0), (0, 0, 0), (0, 0, 0), (0, 0, 0), (0, 0, 0), (0, 0, 0), (0, 0, 0), (0, 1, 0), (0, 0, 0), (0, 1, 0), (0, 0, 0), (0, 0, 0), (0, 0, 1), (0, 0, 0), (0, 0, 0), (0, 0, 0), (0, 0, 0), (0, 0, 0), (0, 0, 0), (0, 0, 0), (0, 1, 0), (0, 0, 1), (0, 0, 0), (0, 0, 0), (1, 0, 1), (1, 0, 1), (0, 0, 0), (0, 0, 0), (0, 0, 0), (0, 0, 0), (0, 0, 0), (0, 0, 0), (1, 0, 1), (0, 0, 0), (0, 0, 0), (0, 0, 0), (0, 0, 0), (0, 0, 0), (0, 1, 0), (0, 0, 0), (0, 0, 0), (0, 0, 0), (0, 0, 0), (1, 0, 0), (1, 0, 0), (0, 0, 0), (0, 0, 1), (0, 0, 0), (0, 0, 0), (0, 0, 0), (0, 0, 0), (0, 0, 0), (0, 1, 1), (0, 0, 0), (1, 1, 1), (0, 0, 0), (0, 0, 0), (0, 0, 0), (0, 0, 0), (0, 0, 0), (0, 0, 0), (0, 0, 0), (0, 0, 0), (0, 0, 0), (0, 0, 0), (0, 0, 0), (0, 0, 0), (0, 0, 0), (0, 1, 1), (0, 0, 0), (0, 0, 0), (0, 0, 0), (0, 0, 0), (0, 0, 0), (0, 0, 0), (0, 0, 0), (0, 1, 0), (0, 0, 0), (0, 0, 0), (1, 0, 1), (0, 0, 0), (0, 0, 0), (1, 1, 0), (0, 0, 0), (0, 0, 0), (0, 0, 0), (0, 0, 0), (0, 0, 0), (0, 0, 0), (0, 0, 0)]

def litHB : List Nat := [1, 1, 0, 0, 1, 0, 1, 0, 1, 1, 0, 0, 1, 0, 1, 0, 1, 1, 0, 0, 1, 0, 1, 0, 0, 0, 1, 0, 1, 0, 1, 0, 1, 0, 1, 0, 0, 0, 1, 0, 1, 1, 1, 0, 0, 0, 1, 0, 1, 1, 1, 1, 0, 0, 1, 0, 1, 0, 0, 0, 0, 0, 0, 0, 0, 0, 0, 0, 0, 0, 0, 0, 0, 0, 0, 0, 0, 0, 0, 0, 0, 0, 0, 0, 0, 0, 0, 0, 1, 0]
def litBB : List Nat := [1, 1, 0, 0, 1, 0, 1, 0, 1, 1, 0, 0, 1, 0, 1, 0, 1, 1, 0, 0, 1, 0, 1, 0, 0, 0, 1, 0, 1, 0, 1, 0, 1, 0, 1, 0, 0, 0, 1, 0, 1, 1, 1, 0, 0, 0, 1, 0, 1, 1, 1, 1, 0, 0, 1, 0, 1, 0, 0, 0, 0, 0, 0, 0, 0, 0, 0, 0, 0, 0, 0, 0, 0, 0, 0, 0, 0, 0, 0, 0, 0, 0, 0, 0, 0, 0, 0, 0, 1, 0, 0, 0, 0, 0, 0, 0]

/-- A 2-pixel all-black image: far too small to hold a frame, used to exercise
the negative decode paths. -/
def witImg2 : Image := Image.mk 1 2 [(0, 0, 0), (0, 0, 0)]

/-- A 35-pixel single-row carrier, every pixel `(7, 200, 31)`; its capacity of
105 bits just fits the 104-bit frame of the 2-byte message `hi`. -/
def witImg35 : Image := Image.mk 35 1 (List.replicate 35 (7, 200, 31))

/-- The pixel buffer produced by encoding `hi` into `witImg35` with no password. -/
def witOut35pixels : List (Nat × Nat × Nat) := [(7, 201, 30), (6, 201, 30), (7, 200, 31), (7, 200, 30), (7, 200, 31), (6, 201, 31), (6, 200, 31), (6, 201, 30), (6, 200, 31), (6, 201, 30), (7, 200, 31), (6, 201, 30), (6, 200, 31), (6, 201, 31), (7, 200, 30), (6, 201, 30), (7, 201, 31), (7, 200, 30), (7, 200, 30), (7, 200, 30), (6, 200, 30), (6, 200, 30), (6, 200, 30), (6, 200, 30), (6, 200, 30), (6, 200, 30), (6, 200, 30), (6, 200, 30), (6, 200, 30), (6, 200, 30), (6, 201, 30), (7, 201, 30), (7, 200, 30), (7, 200, 31), (7, 200, 31)]

/-! ### General lemmas -/

/-! ### Bit and byte lemmas -/

theorem byteBits_length (b : Nat) : (byteBits b).length = 8 := by
  simp [byteBits]

theorem byteBits_lt_two (b : Nat) : ∀ x ∈ byteBits b, x < 2 := by
  intro x hx
  simp only [byteBits, List.mem_map] at hx
  obtain ⟨i, _, rfl⟩ := hx
  have := Nat.and_le_right (n := b >>> i) (m := 1)
  omega

theorem bytesToBits_append (a b : List Nat) :
    bytesToBits (a ++ b) = bytesToBits a ++ bytesToBits b := by
  simp [bytesToBits]

theorem bytesToBits_length (bs : List Nat) : (bytesToBits bs).length = 8 * bs.length := by
  induction bs with
  | nil => rfl
  | cons b bs ih =>
    simp only [bytesToBits, List.flatMap_cons, List.length_append, byteBits_length,
      List.length_cons] at ih ⊢
    omega

theorem bytesToBits_lt_two (bs : List Nat) : ∀ x ∈ bytesToBits bs, x < 2 := by
  intro x hx
  simp only [bytesToBits, List.mem_flatMap] at hx
  obtain ⟨b, _, hb⟩ := hx
  exact byteBits_lt_two b x hb

set_option maxRecDepth 4000 in
theorem byteFromBits_byteBits_fin : ∀ b : Fin 256, byteFromBits (byteBits b.val) = b.val := by
  decide

theorem byteFromBits_byteBits {b : Nat} (hb : b < 256) : byteFromBits (byteBits b) = b :=
  byteFromBits_byteBits_fin ⟨b, hb⟩

theorem bytesFromBits_bytesToBits (bs : List Nat) (extra : List Nat)
    (h : ∀ b ∈ bs, b < 256) :
    bytesFromBits (bytesToBits bs ++ extra) bs.length = bs := by
  induction bs generalizing extra with
  | nil => rfl
  | cons b bs ih =>
    have hlen : (byteBits b).length = 8 := byteBits_length b
    have h8 : 8 ≤ (bytesToBits (b :: bs) ++ extra).length := by
      simp only [List.length_append, bytesToBits_length, List.length_cons]
      omega
    simp only [List.length_cons, bytesFromBits, h8, if_pos]
    have harr : bytesToBits (b :: bs) ++ extra = byteBits b ++ (bytesToBits bs ++ extra) := by
      simp [bytesToBits]
    rw [harr]
    have htake : (byteBits b ++ (bytesToBits bs ++ extra)).take 8 = byteBits b := by
      rw [show (8 : Nat) = (byteBits b).length from hlen.symm]
      exact List.take_left _ _
    have hdrop : (byteBits b ++ (bytesToBits bs ++ extra)).drop 8 = bytesToBits bs ++ extra := by
      rw [show (8 : Nat) = (byteBits b).length from hlen.symm]
      exact List.drop_left _ _
    rw [htake, hdrop, byteFromBits_byteBits (h b (by simp)), ih extra (fun x hx => h x (by simp [hx]))]

theorem packLE4_length (n : Nat) : (packLE4 n).length = 4 := rfl

theorem packLE4_lt (n : Nat) : ∀ b ∈ packLE4 n, b < 256 := by
  intro b hb
  simp only [packLE4, List.mem_cons, List.not_mem_nil, or_false] at hb
  rcases hb with rfl | rfl | rfl | rfl <;> omega

theorem unpackLE4_packLE4 {n : Nat} (h : n < 4294967296) : unpackLE4 (packLE4 n) = n := by
  simp only [packLE4, unpackLE4, List.getD_cons_zero, List.getD_cons_succ]
  omega

/-! ### Lemmas about `embedBit` and `extractBit` -/

set_option maxRecDepth 4000 in
theorem embedBit_arith_fin :
    ∀ x : Fin 256, ∀ b : Fin 2, (x.val &&& 254) ||| (b.val &&& 1) = 2 * (x.val / 2) + b.val := by
  decide

theorem embedBit_eq (v b : Nat) (hb : b < 2) :
    embedBit v b = 2 * (min 255 v / 2) + b := by
  have hm : min 255 v < 256 := by
    have := Nat.min_le_left 255 v
    omega
  exact embedBit_arith_fin ⟨min 255 v, hm⟩ ⟨b, hb⟩

theorem extractBit_eq_mod (v : Nat) : extractBit v = v % 2 := by
  simp [extractBit, Nat.and_one_is_mod]

theorem extractBit_embedBit (v b : Nat) (hb : b < 2) : extractBit (embedBit v b) = b := by
  rw [embedBit_eq v b hb, extractBit_eq_mod]
  omega

theorem and_one_lt_two (b : Nat) : b &&& 1 < 2 := by
  rw [Nat.and_one_is_mod]
  omega

theorem and_one_self_of_lt_two {b : Nat} (hb : b < 2) : b &&& 1 = b := by
  rw [Nat.and_one_is_mod]
  omega

theorem embedBit_eq_general (v b : Nat) :
    embedBit v b = 2 * (min 255 v / 2) + (b &&& 1) := by
  have hm : min 255 v < 256 := by
    have := Nat.min_le_left 255 v
    omega
  have h := embedBit_arith_fin ⟨min 255 v, hm⟩ ⟨b &&& 1, and_one_lt_two b⟩
  simpa [embedBit, and_one_self_of_lt_two (and_one_lt_two b)] using h

theorem embedBit_div_two (v b : Nat) (hv : v < 256) :
    embedBit v b / 2 = v / 2 := by
  rw [embedBit_eq_general, Nat.min_eq_right (by omega)]
  have := and_one_lt_two b
  omega

/-! ### List `getD`/`set` helpers -/

theorem getD_set_ne {α : Type} (l : List α) (i j : Nat) (a : α) (d : α) (h : i ≠ j) :
    (l.set i a).getD j d = l.getD j d := by
  induction l generalizing i j with
  | nil => rfl
  | cons x xs ih =>
    cases i with
    | zero =>
      cases j with
      | zero => exact absurd rfl h
      | succ j => simp [List.set]
    | succ i =>
      cases j with
      | zero => simp [List.set]
      | succ j => simpa [List.set] using ih i j (by omega)

theorem getD_mem {α : Type} (l : List α) (n : Nat) (d : α) (h : n < l.length) :
    l.getD n d ∈ l := by
  induction l generalizing n with
  | nil => simp at h
  | cons x xs ih =>
    cases n with
    | zero => simp
    | succ n =>
      simp only [List.getD_cons_succ]
      exact List.mem_cons_of_mem x (ih n (by simpa using h))

theorem getD_set_self {α : Type} (l : List α) (i : Nat) (a : α) (d : α) (h : i < l.length) :
    (l.set i a).getD i d = a := by
  induction l generalizing i with
  | nil => simp at h
  | cons x xs ih =>
    cases i with
    | zero => rfl
    | succ i => simpa [List.set] using ih i (by simpa using h)

/-! ### Pixel-level lemmas -/

set_option maxRecDepth 4000 in
theorem embedBit_lt_fin : ∀ x : Fin 256, ∀ bb : Fin 2, (x.val &&& 254) ||| bb.val < 256 := by
  decide

theorem embedBit_lt (v b : Nat) : embedBit v b < 256 := by
  have hb : b &&& 1 < 2 := by
    rw [Nat.and_one_is_mod]
    omega
  have hm : min 255 v < 256 := by
    have := Nat.min_le_left 255 v
    omega
  exact embedBit_lt_fin ⟨min 255 v, hm⟩ ⟨b &&& 1, hb⟩

theorem embedPixel_snd (p : Nat × Nat × Nat) (bits : List Nat) :
    (embedPixel p bits).2 = bits.drop 3 := by
  rcases bits with _ | ⟨b1, _ | ⟨b2, _ | ⟨b3, rest⟩⟩⟩ <;> rfl

theorem embedPixel_lsbs (p : Nat × Nat × Nat) (bits : List Nat)
    (hb : ∀ b ∈ bits, b < 2) (hne : bits ≠ []) :
    [extractBit (embedPixel p bits).1.1, extractBit (embedPixel p bits).1.2.1,
      extractBit (embedPixel p bits).1.2.2]
      = bits.take 3 ++ ([extractBit p.1, extractBit p.2.1, extractBit p.2.2]).drop bits.length := by
  rcases bits with _ | ⟨b1, _ | ⟨b2, _ | ⟨b3, rest⟩⟩⟩
  · exact absurd rfl hne
  · simp [embedPixel, extractBit_embedBit _ _ (hb b1 (by simp))]
  · simp [embedPixel, extractBit_embedBit _ _ (hb b1 (by simp)),
      extractBit_embedBit _ _ (hb b2 (by simp))]
  · simp [embedPixel, extractBit_embedBit _ _ (hb b1 (by simp)),
      extractBit_embedBit _ _ (hb b2 (by simp)), extractBit_embedBit _ _ (hb b3 (by simp)),
      List.drop_of_length_le]

theorem embedPixel_div_two (p : Nat × Nat × Nat) (bits : List Nat)
    (hp1 : p.1 < 256) (hp2 : p.2.1 < 256) (hp3 : p.2.2 < 256) :
    (embedPixel p bits).1.1 / 2 = p.1 / 2 ∧ (embedPixel p bits).1.2.1 / 2 = p.2.1 / 2 ∧
      (embedPixel p bits).1.2.2 / 2 = p.2.2 / 2 := by
  rcases bits with _ | ⟨b1, _ | ⟨b2, _ | ⟨b3, rest⟩⟩⟩ <;>
    simp_all [embedPixel, embedBit_div_two]

theorem embedPixel_fst_lt (p : Nat × Nat × Nat) (bits : List Nat)
    (hp1 : p.1 < 256) (hp2 : p.2.1 < 256) (hp3 : p.2.2 < 256) :
    (embedPixel p bits).1.1 < 256 ∧ (embedPixel p bits).1.2.1 < 256 ∧
      (embedPixel p bits).1.2.2 < 256 := by
  rcases bits with _ | ⟨b1, _ | ⟨b2, _ | ⟨b3, rest⟩⟩⟩ <;>
    simp_all [embedPixel, embedBit_lt]

/-! ### Lemmas about `embedLoop` -/

theorem embedLoop_length (w : Nat) :
    ∀ (coords : List (Nat × Nat)) (px : List (Nat × Nat × Nat)) (bits : List Nat),
      (embedLoop w px coords bits).length = px.length := by
  intro coords
  induction coords with
  | nil => intro px bits; rfl
  | cons c cs ih =>
    intro px bits
    by_cases hb : bits.isEmpty
    · simp [embedLoop, hb]
    · simp [embedLoop, hb, ih]

theorem embedLoop_getD_untouched (w : Nat) :
    ∀ (coords : List (Nat × Nat)) (px : List (Nat × Nat × Nat)) (bits : List Nat) (idx : Nat),
      idx ∉ coords.map (coordIdx w) →
      (embedLoop w px coords bits).getD idx (0, 0, 0) = px.getD idx (0, 0, 0) := by
  intro coords
  induction coords with
  | nil => intro px bits idx _; rfl
  | cons c cs ih =>
    intro px bits idx hidx
    simp only [List.map_cons, List.mem_cons, not_or] at hidx
    by_cases hb : bits.isEmpty
    · simp [embedLoop, hb]
    · simp only [embedLoop, hb, if_neg, Bool.false_eq_true, not_false_iff]
      rw [ih _ _ _ hidx.2, getD_set_ne _ _ _ _ _ (fun h => hidx.1 h.symm)]

theorem embedLoop_getD_beyond (w : Nat) :
    ∀ (coords : List (Nat × Nat)) (px : List (Nat × Nat × Nat)) (bits : List Nat) (idx : Nat),
      idx ∉ (coords.take ((bits.length + 2) / 3)).map (coordIdx w) →
      (embedLoop w px coords bits).getD idx (0, 0, 0) = px.getD idx (0, 0, 0) := by
  intro coords
  induction coords with
  | nil => intro px bits idx _; rfl
  | cons c cs ih =>
    intro px bits idx hidx
    by_cases hb : bits.isEmpty
    · simp [embedLoop, hb]
    · have hlen : bits.length ≠ 0 := by
        cases bits
        · simp at hb
        · simp
      have hk : (bits.length + 2) / 3 = ((bits.length + 2) / 3 - 1) + 1 := by omega
      rw [hk, List.take_succ_cons, List.map_cons] at hidx
      simp only [List.mem_cons, not_or] at hidx
      have hdrop : ((bits.drop 3).length + 2) / 3 = (bits.length + 2) / 3 - 1 := by
        rw [List.length_drop]
        omega
      simp only [embedLoop, hb, Bool.false_eq_true, if_neg, not_false_iff]
      rw [embedPixel_snd]
      rw [ih _ _ _ (by rw [hdrop]; exact hidx.2),
        getD_set_ne _ _ _ _ _ (fun h => hidx.1 h.symm)]

theorem embedLoop_div_two (w : Nat) :
    ∀ (coords : List (Nat × Nat)) (px : List (Nat × Nat × Nat)) (bits : List Nat),
      (∀ p ∈ px, p.1 < 256 ∧ p.2.1 < 256 ∧ p.2.2 < 256) →
      ∀ idx,
        ((embedLoop w px coords bits).getD idx (0, 0, 0)).1 / 2 = (px.getD idx (0, 0, 0)).1 / 2 ∧
        ((embedLoop w px coords bits).getD idx (0, 0, 0)).2.1 / 2 = (px.getD idx (0, 0, 0)).2.1 / 2 ∧
        ((embedLoop w px coords bits).getD idx (0, 0, 0)).2.2 / 2 = (px.getD idx (0, 0, 0)).2.2 / 2 := by
  intro coords
  induction coords with
  | nil => intro px bits _ idx; exact ⟨rfl, rfl, rfl⟩
  | cons c cs ih =>
    intro px bits hpx idx
    by_cases hb : bits.isEmpty
    · simp [embedLoop, hb]
    · simp only [embedLoop, hb, Bool.false_eq_true, if_neg, not_false_iff]
      by_cases hin : coordIdx w c < px.length
      · have hmem : px.getD (coordIdx w c) (0, 0, 0) ∈ px := getD_mem _ _ _ hin
        have hold := hpx _ hmem
        have hlt := embedPixel_fst_lt (px.getD (coordIdx w c) (0, 0, 0)) bits
          hold.1 hold.2.1 hold.2.2
        have hpx2 : ∀ p ∈ px.set (coordIdx w c)
            (embedPixel (px.getD (coordIdx w c) (0, 0, 0)) bits).1, p.1 < 256 ∧ p.2.1 < 256 ∧ p.2.2 < 256 := by
          intro p hp
          rcases List.mem_or_eq_of_mem_set hp with hp2 | rfl
          · exact hpx p hp2
          · exact hlt
        have hrec := ih (px.set (coordIdx w c) (embedPixel (px.getD (coordIdx w c) (0, 0, 0)) bits).1)
          (embedPixel (px.getD (coordIdx w c) (0, 0, 0)) bits).2 hpx2 idx
        by_cases heq : coordIdx w c = idx
        · subst heq
          have hset : (px.set (coordIdx w c)
              (embedPixel (px.getD (coordIdx w c) (0, 0, 0)) bits).1).getD (coordIdx w c) (0, 0, 0)
              = (embedPixel (px.getD (coordIdx w c) (0, 0, 0)) bits).1 :=
            getD_set_self _ _ _ _ hin
          rw [hset] at hrec
          have hdiv := embedPixel_div_two (px.getD (coordIdx w c) (0, 0, 0)) bits
            hold.1 hold.2.1 hold.2.2
          exact ⟨hrec.1.trans hdiv.1, hrec.2.1.trans hdiv.2.1, hrec.2.2.trans hdiv.2.2⟩
        · have hset : (px.set (coordIdx w c)
              (embedPixel (px.getD (coordIdx w c) (0, 0, 0)) bits).1).getD idx (0, 0, 0)
              = px.getD idx (0, 0, 0) := getD_set_ne _ _ _ _ _ heq
          rw [hset] at hrec
          exact hrec
      · have hset : px.set (coordIdx w c)
            (embedPixel (px.getD (coordIdx w c) (0, 0, 0)) bits).1 = px :=
          List.set_eq_of_length_le (by omega)
        rw [hset]
        exact ih _ _ hpx idx

/-! ### Bit-stream lemmas -/

theorem pixBits_mk (w h : Nat) (px : List (Nat × Nat × Nat)) (c : Nat × Nat) :
    pixBits (Image.mk w h px) c =
      [extractBit (px.getD (coordIdx w c) (0, 0, 0)).1,
       extractBit (px.getD (coordIdx w c) (0, 0, 0)).2.1,
       extractBit (px.getD (coordIdx w c) (0, 0, 0)).2.2] := rfl

theorem pixBits_length (img : Image) (c : Nat × Nat) : (pixBits img c).length = 3 := rfl

theorem flatMap_pixBits_length (img : Image) (coords : List (Nat × Nat)) :
    (coords.flatMap (pixBits img)).length = 3 * coords.length := by
  induction coords with
  | nil => rfl
  | cons c cs ih =>
    simp only [List.flatMap_cons, List.length_append, pixBits_length, ih, List.length_cons]
    omega

theorem flatMap_pixBits_take (img : Image) :
    ∀ (coords : List (Nat × Nat)) (k : Nat),
      (coords.take k).flatMap (pixBits img) = (coords.flatMap (pixBits img)).take (3 * k) := by
  intro coords
  induction coords with
  | nil => intro k; simp
  | cons c cs ih =>
    intro k
    cases k with
    | zero => simp
    | succ k =>
      simp only [List.take_succ_cons, List.flatMap_cons]
      rw [List.take_append_eq_append_take, List.take_of_length_le (l := pixBits img c)
        (by rw [pixBits_length]; omega), pixBits_length,
        show 3 * (k + 1) - 3 = 3 * k from by omega, ih k]

theorem flatMap_pixBits_set_ne (w h : Nat) (px : List (Nat × Nat × Nat)) (idx : Nat)
    (a : Nat × Nat × Nat) :
    ∀ (coords : List (Nat × Nat)), idx ∉ coords.map (coordIdx w) →
      coords.flatMap (pixBits (Image.mk w h (px.set idx a)))
        = coords.flatMap (pixBits (Image.mk w h px)) := by
  intro coords
  induction coords with
  | nil => intro _; rfl
  | cons c cs ih =>
    intro hidx
    simp only [List.map_cons, List.mem_cons, not_or] at hidx
    simp only [List.flatMap_cons, ih hidx.2]
    congr 1
    rw [pixBits_mk, pixBits_mk, getD_set_ne _ _ _ _ _ hidx.1]

theorem embedLoop_flatMap (w h : Nat) :
    ∀ (coords : List (Nat × Nat)) (bits : List Nat) (px : List (Nat × Nat × Nat)),
      (coords.map (coordIdx w)).Nodup →
      (∀ c ∈ coords, coordIdx w c < px.length) →
      (∀ b ∈ bits, b < 2) →
      bits.length ≤ 3 * coords.length →
      coords.flatMap (pixBits (Image.mk w h (embedLoop w px coords bits)))
        = bits ++ (coords.flatMap (pixBits (Image.mk w h px))).drop bits.length := by
  intro coords
  induction coords with
  | nil =>
    intro bits px _ _ _ hlen
    simp only [List.length_nil, Nat.mul_zero, Nat.le_zero, List.length_eq_zero] at hlen
    subst hlen
    rfl
  | cons c cs ih =>
    intro bits px hnd hin hb2 hlen
    by_cases hb : bits.isEmpty
    · have : bits = [] := by
        cases bits
        · rfl
        · simp at hb
      subst this
      simp [embedLoop]
    · have hbne : bits ≠ [] := by
        cases bits
        · simp at hb
        · simp
      simp only [List.map_cons, List.nodup_cons, List.mem_map] at hnd
      have hidxcs : coordIdx w c ∉ cs.map (coordIdx w) := by
        intro hmem
        simp only [List.mem_map] at hmem
        obtain ⟨c2, hc2, he⟩ := hmem
        exact hnd.1 ⟨c2, hc2, he⟩
      have hinc : coordIdx w c < px.length := hin c (by simp)
      simp only [embedLoop, hb, Bool.false_eq_true, if_neg, not_false_iff]
      rw [embedPixel_snd]
      set p2 := (embedPixel (px.getD (coordIdx w c) (0, 0, 0)) bits).1 with hp2
      set px1 := px.set (coordIdx w c) p2 with hpx1
      simp only [List.flatMap_cons]
      have hfin : (embedLoop w px1 cs (bits.drop 3)).getD (coordIdx w c) (0, 0, 0) = p2 := by
        rw [embedLoop_getD_untouched w cs px1 (bits.drop 3) (coordIdx w c) hidxcs,
          hpx1, getD_set_self _ _ _ _ hinc]
      have hpix : pixBits (Image.mk w h (embedLoop w px1 cs (bits.drop 3))) c
          = bits.take 3 ++ (pixBits (Image.mk w h px) c).drop bits.length := by
        rw [pixBits_mk, hfin, pixBits_mk, hp2]
        exact embedPixel_lsbs _ bits hb2 hbne
      have hrec : cs.flatMap (pixBits (Image.mk w h (embedLoop w px1 cs (bits.drop 3))))
          = bits.drop 3 ++ (cs.flatMap (pixBits (Image.mk w h px))).drop (bits.length - 3) := by
        have h1 := ih (bits.drop 3) px1 hnd.2
          (fun c2 hc2 => by rw [hpx1, List.length_set]; exact hin c2 (by simp [hc2]))
          (fun b hbm => hb2 b (List.mem_of_mem_drop hbm))
          (by simp only [List.length_drop]; rw [List.length_cons] at hlen; omega)
        rw [h1, hpx1, flatMap_pixBits_set_ne w h px (coordIdx w c) p2 cs hidxcs]
        simp only [List.length_drop]
      rw [hpix, hrec]
      rw [List.drop_append_eq_append_drop, pixBits_length]
      by_cases h3 : 3 ≤ bits.length
      · rw [List.drop_of_length_le (l := pixBits (Image.mk w h px) c)
          (by rw [pixBits_length]; omega)]
        simp only [List.append_nil, List.nil_append]
        rw [← List.append_assoc, List.take_append_drop]
      · have h0 : bits.length - 3 = 0 := by omega
        have hd3 : bits.drop 3 = [] := List.drop_of_length_le (by omega)
        have htake : bits.take 3 = bits := List.take_of_length_le (by omega)
        rw [h0, hd3, htake]
        simp [List.append_assoc]

/-! ### Characterization of the decode bit-collection loop -/

theorem readBitsUntil_eq (img : Image) :
    ∀ (coords : List (Nat × Nat)) (acc : List Nat) (needed : Nat),
      readBitsUntil img coords acc needed
        = acc ++ (coords.take ((needed - acc.length + 2) / 3)).flatMap (pixBits img) := by
  intro coords
  induction coords with
  | nil => intro acc needed; simp [readBitsUntil]
  | cons c cs ih =>
    intro acc needed
    by_cases hle : needed ≤ acc.length
    · have h0 : (needed - acc.length + 2) / 3 = 0 := by omega
      simp [readBitsUntil, hle, h0]
    · have hm : 1 ≤ needed - acc.length := by omega
      have hk : (needed - acc.length + 2) / 3 = ((needed - acc.length + 2) / 3 - 1) + 1 := by
        omega
      simp only [readBitsUntil, if_neg hle]
      rw [ih]
      rw [hk, List.take_succ_cons, List.flatMap_cons, ← List.append_assoc]
      congr 2
      rw [List.length_append, pixBits_length]
      congr 1
      omega

/-! ### Permutation facts about the Fisher-Yates shuffle -/

theorem randbelowAux_lt (n k : Nat) (hn : 1 ≤ n) :
    ∀ (fuel : Nat) (g : MTState), (randbelowAux g n k fuel).1 < n := by
  intro fuel
  induction fuel with
  | zero =>
    intro g
    simp only [randbelowAux]
    exact Nat.mod_lt _ (by omega)
  | succ fuel ih =>
    intro g
    simp only [randbelowAux]
    by_cases hr : (getrandbits g k).1 < n
    · simp [hr]
    · simp [hr, ih]

theorem randbelow_lt (g : MTState) (n : Nat) (hn : 1 ≤ n) : (randbelow g n).1 < n :=
  randbelowAux_lt n (pyBitLength n) hn 64 g

theorem getD_cons_set_perm (x : Nat) :
    ∀ (ys : List Nat) (k : Nat), k < ys.length →
      List.Perm ((ys.getD k 0) :: ys.set k x) (x :: ys) := by
  intro ys
  induction ys with
  | nil => intro k hk; simp at hk
  | cons z t ih =>
    intro k hk
    cases k with
    | zero =>
      simp only [List.getD_cons_zero, List.set_cons_zero]
      exact List.Perm.swap x z t
    | succ k =>
      have hk2 : k < t.length := by simpa using hk
      simp only [List.getD_cons_succ, List.set_cons_succ]
      exact ((List.Perm.swap z (t.getD k 0) (t.set k x)).trans
        ((ih k hk2).cons z)).trans (List.Perm.swap x z t)

theorem swap_perm :
    ∀ (l : List Nat) (i j : Nat), j ≤ i → i < l.length →
      List.Perm ((l.set i (l.getD j 0)).set j (l.getD i 0)) l := by
  intro l
  induction l with
  | nil => intro i j _ hi; simp at hi
  | cons x xs ih =>
    intro i j hj hi
    cases j with
    | zero =>
      cases i with
      | zero => simp
      | succ i =>
        have hi2 : i < xs.length := by simpa using hi
        simp only [List.getD_cons_zero, List.getD_cons_succ, List.set_cons_succ,
          List.set_cons_zero]
        exact getD_cons_set_perm x xs i hi2
    | succ j =>
      cases i with
      | zero => omega
      | succ i =>
        have hi2 : i < xs.length := by simpa using hi
        simp only [List.getD_cons_succ, List.set_cons_succ]
        exact (ih i j (by omega) hi2).cons x

theorem shuffleLoop_perm :
    ∀ (n : Nat) (g : MTState) (x : List Nat), n < x.length →
      List.Perm (shuffleLoop g x n).2 x := by
  intro n
  induction n with
  | zero => intro g x _; exact List.Perm.refl x
  | succ i ih =>
    intro g x hn
    simp only [shuffleLoop]
    have hj : (randbelow g (i + 2)).1 < i + 2 := randbelow_lt g (i + 2) (by omega)
    have hswap : List.Perm ((x.set (i + 1) (x.getD (randbelow g (i + 2)).1 0)).set
        (randbelow g (i + 2)).1 (x.getD (i + 1) 0)) x :=
      swap_perm x (i + 1) (randbelow g (i + 2)).1 (by omega) hn
    have hlen : ((x.set (i + 1) (x.getD (randbelow g (i + 2)).1 0)).set
        (randbelow g (i + 2)).1 (x.getD (i + 1) 0)).length = x.length := by
      simp
    exact (ih _ _ (by omega)).trans hswap

theorem pyShuffle_perm (seed : Nat) (x : List Nat) : List.Perm (pyShuffle seed x) x := by
  by_cases hx : x = []
  · subst hx
    exact List.Perm.refl _
  · have hlen : 1 ≤ x.length := by
      cases x
      · exact absurd rfl hx
      · simp
    have : x.length - 1 < x.length := by omega
    exact shuffleLoop_perm (x.length - 1) (seedMT seed) x this

/-! ### The pixel-order as a permutation of the grid -/

theorem coordIdx_map_inv (w i : Nat) : coordIdx w (i % w, i / w) = i := by
  simp only [coordIdx]
  rw [Nat.mul_comm]
  exact Nat.div_add_mod i w

theorem rasterCoords_eq (w h : Nat) :
    rasterCoords w h = (List.range (w * h)).map (fun i => (i % w, i / w)) := by
  induction h with
  | zero => simp [rasterCoords]
  | succ h ih =>
    rw [rasterCoords, List.range_succ, List.flatMap_append, ← rasterCoords, ih]
    have hadd : w * (h + 1) = w * h + w := by ring
    rw [hadd, List.range_add, List.map_append, List.map_map]
    congr 1
    simp only [List.flatMap_cons, List.flatMap_nil, List.append_nil]
    apply List.map_congr_left
    intro x hx
    have hxw : x < w := List.mem_range.mp hx
    have h1 : (w * h + x) % w = x := by
      rw [Nat.add_comm, Nat.mul_comm, Nat.add_mul_mod_self_right]
      exact Nat.mod_eq_of_lt hxw
    have h2 : (w * h + x) / w = h := by
      rw [Nat.add_comm, Nat.mul_comm, Nat.add_mul_div_right x h (by omega),
        Nat.div_eq_of_lt hxw]
      omega
    simp [Function.comp, h1, h2]

theorem pixelCoords_falsy (w h : Nat) (pw : Option (List Nat)) (hpw : pyTruthyPw pw = false) :
    pixelCoords w h pw = rasterCoords w h := by
  match pw with
  | none => rfl
  | some p =>
    simp only [pyTruthyPw, Bool.not_eq_false'] at hpw
    simp [pixelCoords, hpw]

theorem pixelCoords_truthy (w h : Nat) (p : List Nat) (hp : p ≠ []) :
    pixelCoords w h (some p)
      = (pyShuffle (seedOfPassword p) (List.range (w * h))).map (fun i => (i % w, i / w)) := by
  have : p.isEmpty = false := by
    cases p
    · exact absurd rfl hp
    · rfl
  simp [pixelCoords, this]

theorem pixelCoords_perm (w h : Nat) (pw : Option (List Nat)) :
    List.Perm (pixelCoords w h pw) ((List.range (w * h)).map (fun i => (i % w, i / w))) := by
  by_cases hpw : pyTruthyPw pw = false
  · rw [pixelCoords_falsy w h pw hpw, rasterCoords_eq]
  · match pw with
    | none => simp [pyTruthyPw] at hpw
    | some p =>
      have hp : p ≠ [] := by
        intro he
        subst he
        simp [pyTruthyPw] at hpw
      rw [pixelCoords_truthy w h p hp]
      exact List.Perm.map _ (pyShuffle_perm (seedOfPassword p) (List.range (w * h)))

theorem range_map_coord_nodup (w n : Nat) :
    ((List.range n).map (fun i => (i % w, i / w))).Nodup := by
  refine (List.nodup_range n).map ?_
  intro a b hab
  have hab2 : (a % w, a / w) = (b % w, b / w) := hab
  have h3 := congrArg (coordIdx w) hab2
  rwa [coordIdx_map_inv, coordIdx_map_inv] at h3

theorem pixelCoords_length (w h : Nat) (pw : Option (List Nat)) :
    (pixelCoords w h pw).length = w * h := by
  have := (pixelCoords_perm w h pw).length_eq
  simpa using this

theorem pixelCoords_idx_perm (w h : Nat) (pw : Option (List Nat)) :
    List.Perm ((pixelCoords w h pw).map (coordIdx w)) (List.range (w * h)) := by
  have h1 := List.Perm.map (coordIdx w) (pixelCoords_perm w h pw)
  rw [List.map_map] at h1
  have h2 : (List.range (w * h)).map (coordIdx w ∘ fun i => (i % w, i / w))
      = List.range (w * h) := by
    have : (coordIdx w ∘ fun i => (i % w, i / w)) = id := by
      funext i
      simp [Function.comp, coordIdx_map_inv]
    rw [this, List.map_id]
  rwa [h2] at h1

theorem pixelCoords_idx_nodup (w h : Nat) (pw : Option (List Nat)) :
    ((pixelCoords w h pw).map (coordIdx w)).Nodup :=
  ((pixelCoords_idx_perm w h pw).nodup_iff).mpr (List.nodup_range (w * h))

theorem pixelCoords_idx_lt (w h : Nat) (pw : Option (List Nat)) :
    ∀ c ∈ pixelCoords w h pw, coordIdx w c < w * h := by
  intro c hc
  have : coordIdx w c ∈ (pixelCoords w h pw).map (coordIdx w) :=
    List.mem_map_of_mem _ hc
  have := ((pixelCoords_idx_perm w h pw).mem_iff).mp this
  exact List.mem_range.mp this

theorem pixelCoords_mem (w h : Nat) (pw : Option (List Nat)) (x y : Nat)
    (hx : x < w) (hy : y < h) : (x, y) ∈ pixelCoords w h pw := by
  have hi : y * w + x < w * h := by
    calc y * w + x < y * w + w := by omega
      _ = (y + 1) * w := by ring
      _ ≤ h * w := Nat.mul_le_mul_right w (by omega)
      _ = w * h := Nat.mul_comm h w
  have hmem : (y * w + x) ∈ List.range (w * h) := List.mem_range.mpr hi
  have hcoord : ((y * w + x) % w, (y * w + x) / w) = (x, y) := by
    have h1 : (y * w + x) % w = x := by
      rw [Nat.add_comm]
      rw [Nat.add_mul_mod_self_right]
      exact Nat.mod_eq_of_lt hx
    have h2 : (y * w + x) / w = y := by
      rw [Nat.add_comm, Nat.add_mul_div_right x y (by omega), Nat.div_eq_of_lt hx]
      omega
    rw [h1, h2]
  have : (x, y) ∈ (List.range (w * h)).map (fun i => (i % w, i / w)) := by
    rw [← hcoord]
    exact List.mem_map_of_mem _ hmem
  exact ((pixelCoords_perm w h pw).mem_iff).mpr this

theorem count_eq_one_of_nodup_of_mem {α : Type} [BEq α] [LawfulBEq α] :
    ∀ (l : List α) (a : α), l.Nodup → a ∈ l → l.count a = 1 := by
  intro l a hnd ha
  induction l with
  | nil => simp at ha
  | cons b t ih =>
    have hparts := List.nodup_cons.mp hnd
    rw [List.count_cons]
    rcases List.mem_cons.mp ha with rfl | hat
    · rw [List.count_eq_zero.mpr hparts.1]
      simp
    · have hne : a ≠ b := by
        rintro rfl
        exact hparts.1 hat
      rw [ih hparts.2 hat]
      have hne2 : ¬b = a := fun hh => hne hh.symm
      simp [hne2]

theorem pixelCoords_count (w h : Nat) (pw : Option (List Nat)) (x y : Nat)
    (hx : x < w) (hy : y < h) : (pixelCoords w h pw).count (x, y) = 1 := by
  have hnd : (pixelCoords w h pw).Nodup :=
    ((pixelCoords_perm w h pw).nodup_iff).mpr (range_map_coord_nodup w (w * h))
  exact count_eq_one_of_nodup_of_mem _ _ hnd (pixelCoords_mem w h pw x y hx hy)

/-! ### Frame facts and the shape of a successful encode -/

@[simp] theorem Image_width_mk (w h : Nat) (px : List (Nat × Nat × Nat)) :
    (Image.mk w h px).width = w := rfl

@[simp] theorem Image_height_mk (w h : Nat) (px : List (Nat × Nat × Nat)) :
    (Image.mk w h px).height = h := rfl

@[simp] theorem Image_pixels_mk (w h : Nat) (px : List (Nat × Nat × Nat)) :
    (Image.mk w h px).pixels = px := rfl

theorem frame_length (msg : List Nat) :
    (marker ++ packLE4 msg.length ++ msg).length = 11 + msg.length := by
  simp [marker, packLE4]
  omega

theorem frame_bytes_lt (msg : List Nat) (hmsg : ∀ b ∈ msg, b < 256) :
    ∀ b ∈ marker ++ packLE4 msg.length ++ msg, b < 256 := by
  intro b hb
  rcases List.mem_append.mp hb with hb1 | hb2
  · rcases List.mem_append.mp hb1 with hbm | hbp
    · simp only [marker, List.mem_cons, List.not_mem_nil, or_false] at hbm
      rcases hbm with rfl | rfl | rfl | rfl | rfl | rfl | rfl <;> omega
    · exact packLE4_lt _ b hbp
  · exact hmsg b hb2

theorem encode_ok (img : Image) (msg : List Nat) (pw : Option (List Nat))
    (hlen : msg.length < 4294967296)
    (hcap : (marker ++ packLE4 msg.length ++ msg).length * 8 ≤ img.width * img.height * 3) :
    encode img msg pw = Except.ok (Image.mk img.width img.height
      (embedLoop img.width img.pixels (pixelCoords img.width img.height pw)
        (bytesToBits (marker ++ packLE4 msg.length ++ msg)))) := by
  simp only [encode, mkMessageBytes, if_pos hlen]
  rw [if_neg (by omega)]

theorem encode_capacity_err (img : Image) (msg : List Nat) (pw : Option (List Nat))
    (hlen : msg.length < 4294967296)
    (hcap : img.width * img.height * 3 < (marker ++ packLE4 msg.length ++ msg).length * 8) :
    encode img msg pw = Except.error (EncodeError.capacityError
      ((marker ++ packLE4 msg.length ++ msg).length * 8) (img.width * img.height * 3)) := by
  simp only [encode, mkMessageBytes, if_pos hlen]
  rw [if_pos hcap]

theorem flatMap_pixBits_drop (img : Image) :
    ∀ (coords : List (Nat × Nat)) (k : Nat),
      (coords.drop k).flatMap (pixBits img) = (coords.flatMap (pixBits img)).drop (3 * k) := by
  intro coords
  induction coords with
  | nil => intro k; simp
  | cons c cs ih =>
    intro k
    cases k with
    | zero => simp
    | succ k =>
      simp only [List.drop_succ_cons, List.flatMap_cons]
      rw [List.drop_append_eq_append_drop, pixBits_length,
        List.drop_of_length_le (l := pixBits img c) (by rw [pixBits_length]; omega),
        ih k, List.nil_append, show 3 * (k + 1) - 3 = 3 * k from by omega]

/-! ### Decoding a freshly encoded image recovers the message -/

theorem decodeImage_encode (w h : Nat) (px : List (Nat × Nat × Nat)) (msg : List Nat)
    (pw : Option (List Nat))
    (hpx : px.length = w * h)
    (hmsg : ∀ b ∈ msg, b < 256)
    (hne : msg ≠ [])
    (hlen : msg.length < 4294967296)
    (hcap : 8 * (11 + msg.length) ≤ 3 * (w * h)) :
    decodeImage (Image.mk w h
      (embedLoop w px (pixelCoords w h pw)
        (bytesToBits (marker ++ packLE4 msg.length ++ msg)))) pw = some msg := by
  obtain ⟨WH, hWH⟩ : ∃ n, n = w * h := ⟨_, rfl⟩
  have hL1 : 1 ≤ msg.length := List.length_pos.mpr hne
  have hWH32 : 32 ≤ WH := by
    rw [hWH]
    omega
  have hLWH : msg.length ≤ WH := by
    rw [hWH]
    omega
  set L := msg.length with hLdef
  set frame := marker ++ packLE4 L ++ msg with hframe
  have hfl : frame.length = 11 + L := frame_length msg
  set bits := bytesToBits frame with hbits
  have hbl : bits.length = 8 * (11 + L) := by rw [hbits, bytesToBits_length, hfl]
  set coords := pixelCoords w h pw with hcoords
  have hcl : coords.length = w * h := pixelCoords_length w h pw
  set out := embedLoop w px coords bits with hout
  have hstream : coords.flatMap (pixBits (Image.mk w h out))
      = bits ++ (coords.flatMap (pixBits (Image.mk w h px))).drop bits.length := by
    refine embedLoop_flatMap w h coords bits px (pixelCoords_idx_nodup w h pw) ?_ ?_ ?_
    · intro c hc
      rw [hpx]
      exact pixelCoords_idx_lt w h pw c hc
    · exact bytesToBits_lt_two frame
    · rw [hbl, hcl, ← hWH]
      omega
  set S := coords.flatMap (pixBits (Image.mk w h out)) with hS
  have hSlen : S.length = 3 * WH := by
    rw [hS, flatMap_pixBits_length, hcl, hWH]
  have hT : bits.length = 8 * (11 + L) := hbl
  have hprefix : ∀ n, n ≤ bits.length → S.take n = bits.take n := by
    intro n hn
    rw [hstream, List.take_append_eq_append_take, Nat.sub_eq_zero_of_le hn, List.take_zero,
      List.append_nil]
  have hbits96 : 96 ≤ bits.length := by rw [hbl]; omega
  -- the header scan
  have hEH : extractedHeader (Image.mk w h out) pw = S.take 90 := by
    show readBitsUntil (Image.mk w h out) (pixelCoords w h pw) [] 88 = S.take 90
    rw [readBitsUntil_eq, ← hcoords]
    rw [show (88 - ([] : List Nat).length + 2) / 3 = 30 from by simp, hS,
      flatMap_pixBits_take]
    simp
  have hEHlen : (extractedHeader (Image.mk w h out) pw).length = 90 := by
    rw [hEH, List.length_take, hSlen]
    omega
  have hEHval : extractedHeader (Image.mk w h out) pw = bits.take 90 := by
    rw [hEH]
    exact hprefix 90 (by omega)
  -- the header bytes
  have hhdr11 : (marker ++ packLE4 L).length = 11 := by simp [marker, packLE4]
  have hbsplit : bits = bytesToBits (marker ++ packLE4 L) ++ bytesToBits msg := by
    rw [hbits, hframe, List.append_assoc, bytesToBits_append]
    rfl
  have h88 : (bytesToBits (marker ++ packLE4 L)).length = 88 := by
    rw [bytesToBits_length, hhdr11]
  have htake90 : bits.take 90
      = bytesToBits (marker ++ packLE4 L) ++ (bytesToBits msg).take 2 := by
    rw [hbsplit, List.take_append_eq_append_take,
      List.take_of_length_le (by rw [h88]; omega), h88]
  have hhdrlt : ∀ b ∈ marker ++ packLE4 L, b < 256 := by
    intro b hb
    rcases List.mem_append.mp hb with hbm | hbp
    · simp only [marker, List.mem_cons, List.not_mem_nil, or_false] at hbm
      rcases hbm with rfl | rfl | rfl | rfl | rfl | rfl | rfl <;> omega
    · exact packLE4_lt _ b hbp
  have hHB : headerBytes (Image.mk w h out) pw = marker ++ packLE4 L := by
    show bytesFromBits (extractedHeader (Image.mk w h out) pw) 11 = marker ++ packLE4 L
    rw [hEHval, htake90, show (11 : Nat) = (marker ++ packLE4 L).length from hhdr11.symm]
    exact bytesFromBits_bytesToBits _ _ hhdrlt
  have hHBlen : (headerBytes (Image.mk w h out) pw).length = 11 := by rw [hHB, hhdr11]
  have hmark7 : (headerBytes (Image.mk w h out) pw).take 7 = marker := by
    rw [hHB, show (7 : Nat) = marker.length from rfl, List.take_left]
  have hPL : parsedLength (Image.mk w h out) pw = L := by
    show unpackLE4 (((headerBytes (Image.mk w h out) pw).drop 7).take 4) = L
    rw [hHB, show (7 : Nat) = marker.length from rfl, List.drop_left,
      List.take_of_length_le (by rw [packLE4_length]), unpackLE4_packLE4 hlen]
  -- the body scan
  have hEB : extractedBody (Image.mk w h out) pw ((11 + L) * 8)
      = S.take (90 + 3 * (((11 + L) * 8 - 90 + 2) / 3)) := by
    show (if (extractedHeader (Image.mk w h out) pw).length < (11 + L) * 8 then
        readBitsUntil (Image.mk w h out)
          ((pixelCoords w h pw).drop ((extractedHeader (Image.mk w h out) pw).length / 3))
          (extractedHeader (Image.mk w h out) pw) ((11 + L) * 8)
      else extractedHeader (Image.mk w h out) pw) = _
    rw [if_pos (by rw [hEHlen]; omega), readBitsUntil_eq, hEHlen, ← hcoords,
      show (90 : Nat) / 3 = 30 from rfl, hEH]
    rw [flatMap_pixBits_take, flatMap_pixBits_drop, ← hS,
      show (3 * 30 : Nat) = 90 from rfl, ← List.take_add]
  have hkk : (11 + L) * 8 ≤ 90 + 3 * (((11 + L) * 8 - 90 + 2) / 3) := by omega
  have hEBgood : extractedBody (Image.mk w h out) pw ((11 + L) * 8)
      = bits ++ ((coords.flatMap (pixBits (Image.mk w h px))).drop bits.length).take
          (90 + 3 * (((11 + L) * 8 - 90 + 2) / 3) - bits.length) := by
    rw [hEB, hstream, List.take_append_eq_append_take,
      List.take_of_length_le (by rw [hbl]; omega)]
  -- the recovered bytes
  have hAB : bytesFromBits (extractedBody (Image.mk w h out) pw ((11 + L) * 8)) (11 + L)
      = frame := by
    rw [hEBgood, hbits, show (11 + L : Nat) = frame.length from hfl.symm]
    exact bytesFromBits_bytesToBits _ _ (frame_bytes_lt msg hmsg)
  -- assemble the decode
  show (if 7 ≤ (headerBytes (Image.mk w h out) pw).length ∧
        (headerBytes (Image.mk w h out) pw).take 7 = marker then
      if (headerBytes (Image.mk w h out) pw).length < 11 then none
      else
        if parsedLength (Image.mk w h out) pw = 0 ∨
            (Image.mk w h out).width * (Image.mk w h out).height
              < parsedLength (Image.mk w h out) pw then none
        else
          if 11 + parsedLength (Image.mk w h out) pw ≤
              (bytesFromBits
                (extractedBody (Image.mk w h out) pw
                  ((11 + parsedLength (Image.mk w h out) pw) * 8))
                (11 + parsedLength (Image.mk w h out) pw)).length then
            some (((bytesFromBits
                (extractedBody (Image.mk w h out) pw
                  ((11 + parsedLength (Image.mk w h out) pw) * 8))
                (11 + parsedLength (Image.mk w h out) pw)).drop 11).take
              (parsedLength (Image.mk w h out) pw))
          else none
    else none) = some msg
  rw [if_pos ⟨by rw [hHBlen]; omega, hmark7⟩, if_neg (by rw [hHBlen]; omega), hPL,
    if_neg (by rw [Image_width_mk, Image_height_mk, ← hWH]; omega), hAB,
    if_pos (by rw [hfl]), hframe, List.append_assoc,
    show (11 : Nat) = (marker ++ packLE4 L).length from hhdr11.symm]
  rw [← List.append_assoc, List.drop_left, List.take_of_length_le (by omega)]

/-! ### Password-congruence of the codec -/

theorem pixelCoords_empty_password (w h : Nat) :
    pixelCoords w h (some []) = pixelCoords w h none := rfl

theorem decodeImage_pw_congr (img : Image) (pw1 pw2 : Option (List Nat))
    (h : pixelCoords img.width img.height pw1 = pixelCoords img.width img.height pw2) :
    decodeImage img pw1 = decodeImage img pw2 := by
  have hEH : extractedHeader img pw1 = extractedHeader img pw2 := by
    unfold extractedHeader
    rw [h]
  have hHB : headerBytes img pw1 = headerBytes img pw2 := by
    unfold headerBytes
    rw [hEH]
  have hPL : parsedLength img pw1 = parsedLength img pw2 := by
    unfold parsedLength
    rw [hHB]
  have hEB : ∀ t, extractedBody img pw1 t = extractedBody img pw2 t := by
    intro t
    unfold extractedBody
    rw [hEH, h]
  unfold decodeImage
  simp only [hHB, hPL, hEB]

theorem encode_pw_congr (img : Image) (msg : List Nat) (pw1 pw2 : Option (List Nat))
    (h : pixelCoords img.width img.height pw1 = pixelCoords img.width img.height pw2) :
    encode img msg pw1 = encode img msg pw2 := by
  unfold encode
  cases mkMessageBytes msg with
  | error e => rfl
  | ok mb =>
    by_cases hcap : img.width * img.height * 3 < mb.length * 8
    · simp [hcap]
    · simp [hcap, h]

/-! ### Inversion of a successful encode -/

theorem encode_ok_inv (img : Image) (msg : List Nat) (pw : Option (List Nat)) (out : Image)
    (h : encode img msg pw = Except.ok out) :
    msg.length < 4294967296 ∧
    (marker ++ packLE4 msg.length ++ msg).length * 8 ≤ img.width * img.height * 3 ∧
    out = Image.mk img.width img.height (embedLoop img.width img.pixels
      (pixelCoords img.width img.height pw)
      (bytesToBits (marker ++ packLE4 msg.length ++ msg))) := by
  by_cases h1 : msg.length < 4294967296
  · by_cases h2 : img.width * img.height * 3 < (marker ++ packLE4 msg.length ++ msg).length * 8
    · rw [encode_capacity_err img msg pw h1 h2] at h
      exact absurd h (by simp)
    · refine ⟨h1, by omega, ?_⟩
      rw [encode_ok img msg pw h1 (by omega)] at h
      exact (Except.ok.inj h).symm
  · rw [show encode img msg pw = Except.error EncodeError.structError from by
      simp [encode, mkMessageBytes, h1]] at h
    exact absurd h (by simp)

/-! ### Kernel evaluation stages for the password decode path

The chain `mtStage*` materializes the MT19937 state for the seed of the
password `ccj` into the literals defined above, so that each step forces its
values left-to-right with bounded recursion depth. -/

set_option maxRecDepth 20000 in
theorem mtStageGenrand : initGenrand 19650218 = litL0 := by decide

set_option maxRecDepth 20000 in
theorem mtStageInit : initByArray1 1543657490 = litState := by
  simp only [initByArray1, mtStageGenrand]
  rw [show ibaScanA 1543657490 (litL0.headD 0) litL0.tail = litRA from by decide]
  rw [show litRA.getLastD 0 = 81232532 from by decide]
  rw [show ibaScanB (ibaStepA 1543657490 (litRA.headD 0) 81232532) 2 litRA.tail = litRB
    from by decide]
  decide

set_option maxRecDepth 20000 in
theorem mtStageSeed : seedMT 1543657490 = MTState.mk litState 624 := by
  simp only [seedMT]
  rw [show 1543657490 % M32 = 1543657490 from by decide]
  rw [mtStageInit]

set_option maxRecDepth 20000 in
theorem seedOfPassword_ccj : seedOfPassword [99, 99, 106] = 1543657490 := by decide

set_option maxRecDepth 40000 in
set_option maxHeartbeats 2000000 in
theorem pyShuffle_ccj : pyShuffle 1543657490 (List.range 144) = litPerm := by
  simp only [pyShuffle]
  rw [mtStageSeed]
  decide

set_option maxRecDepth 20000 in
theorem pixelCoords_ccj : pixelCoords 12 12 (some [99, 99, 106]) = litCoords := by
  simp only [pixelCoords, List.isEmpty, seedOfPassword_ccj]
  rw [show (12 * 12 : Nat) = 144 from by decide, pyShuffle_ccj]
  decide

set_option maxRecDepth 20000 in
theorem ccjStageEH : extractedHeader (Image.mk 12 12 stegoC4pixels) (some [99, 99, 106])
    = litHB := by
  show readBitsUntil (Image.mk 12 12 stegoC4pixels)
    (pixelCoords 12 12 (some [99, 99, 106])) [] 88 = litHB
  rw [pixelCoords_ccj]
  decide

set_option maxRecDepth 20000 in
theorem ccjStageHB : headerBytes (Image.mk 12 12 stegoC4pixels) (some [99, 99, 106])
    = [83, 83, 83, 84, 69, 71, 79, 1, 0, 0, 0] := by
  show bytesFromBits
    (extractedHeader (Image.mk 12 12 stegoC4pixels) (some [99, 99, 106])) 11 = _
  rw [ccjStageEH]
  decide

set_option maxRecDepth 20000 in
theorem ccjStagePL : parsedLength (Image.mk 12 12 stegoC4pixels) (some [99, 99, 106]) = 1 := by
  show unpackLE4 (((headerBytes (Image.mk 12 12 stegoC4pixels)
    (some [99, 99, 106])).drop 7).take 4) = 1
  rw [ccjStageHB]
  decide

set_option maxRecDepth 20000 in
theorem ccjStageEB : extractedBody (Image.mk 12 12 stegoC4pixels) (some [99, 99, 106])
    ((11 + 1) * 8) = litBB := by
  show (if (extractedHeader (Image.mk 12 12 stegoC4pixels)
        (some [99, 99, 106])).length < (11 + 1) * 8 then
      readBitsUntil (Image.mk 12 12 stegoC4pixels)
        ((pixelCoords 12 12 (some [99, 99, 106])).drop
          ((extractedHeader (Image.mk 12 12 stegoC4pixels) (some [99, 99, 106])).length / 3))
        (extractedHeader (Image.mk 12 12 stegoC4pixels) (some [99, 99, 106])) ((11 + 1) * 8)
    else extractedHeader (Image.mk 12 12 stegoC4pixels) (some [99, 99, 106])) = litBB
  rw [ccjStageEH, pixelCoords_ccj]
  decide

set_option maxRecDepth 20000 in
theorem ccjStageDI : decodeImage (Image.mk 12 12 stegoC4pixels) (some [99, 99, 106])
    = some [1] := by
  show (if 7 ≤ (headerBytes (Image.mk 12 12 stegoC4pixels) (some [99, 99, 106])).length ∧
        (headerBytes (Image.mk 12 12 stegoC4pixels) (some [99, 99, 106])).take 7 = marker then
      if (headerBytes (Image.mk 12 12 stegoC4pixels) (some [99, 99, 106])).length < 11 then none
      else
        if parsedLength (Image.mk 12 12 stegoC4pixels) (some [99, 99, 106]) = 0 ∨
            (Image.mk 12 12 stegoC4pixels).width * (Image.mk 12 12 stegoC4pixels).height
              < parsedLength (Image.mk 12 12 stegoC4pixels) (some [99, 99, 106]) then none
        else
          if 11 + parsedLength (Image.mk 12 12 stegoC4pixels) (some [99, 99, 106]) ≤
              (bytesFromBits
                (extractedBody (Image.mk 12 12 stegoC4pixels) (some [99, 99, 106])
                  ((11 + parsedLength (Image.mk 12 12 stegoC4pixels) (some [99, 99, 106])) * 8))
                (11 + parsedLength (Image.mk 12 12 stegoC4pixels) (some [99, 99, 106]))).length then
            some (((bytesFromBits
                (extractedBody (Image.mk 12 12 stegoC4pixels) (some [99, 99, 106])
                  ((11 + parsedLength (Image.mk 12 12 stegoC4pixels) (some [99, 99, 106])) * 8))
                (11 + parsedLength (Image.mk 12 12 stegoC4pixels) (some [99, 99, 106]))).drop
              11).take (parsedLength (Image.mk 12 12 stegoC4pixels) (some [99, 99, 106])))
          else none
    else none) = some [1]
  rw [ccjStageHB, ccjStagePL, ccjStageEB]
  decide

set_option maxRecDepth 20000 in
theorem ccjStageDecode : decode (Image.mk 12 12 stegoC4pixels) (some [99, 99, 106])
    = some [1] := by
  show (if pyTruthyBytes (decodeImage (Image.mk 12 12 stegoC4pixels) (some [99, 99, 106])) then
      decodeImage (Image.mk 12 12 stegoC4pixels) (some [99, 99, 106])
    else if pyTruthyPw (some [99, 99, 106]) then
      if pyTruthyBytes (decodeImage (Image.mk 12 12 stegoC4pixels) none) then
        decodeImage (Image.mk 12 12 stegoC4pixels) none
      else none
    else none) = some [1]
  rw [ccjStageDI]
  decide

set_option maxRecDepth 20000 in
theorem encode_imgC4 : encode (Image.mk 12 12 imgC4pixels) [104, 105] none
    = Except.ok (Image.mk 12 12 stegoC4pixels) := by
  rw [encode_ok _ _ _ (by decide) (by decide)]
  simp only [Image_width_mk, Image_height_mk, Image_pixels_mk]
  rw [show embedLoop 12 imgC4pixels (pixelCoords 12 12 none)
    (bytesToBits (marker ++ packLE4 ([104, 105] : List Nat).length ++ [104, 105]))
    = stegoC4pixels from by decide]

/-! ### getD helpers for the positional characterizations -/

theorem getD_append_left {α : Type} (l1 l2 : List α) (n : Nat) (d : α) (h : n < l1.length) :
    (l1 ++ l2).getD n d = l1.getD n d := by
  induction l1 generalizing n with
  | nil => simp at h
  | cons x xs ih =>
    cases n with
    | zero => rfl
    | succ n => simpa using ih n (by simpa using h)

theorem getD_append_right {α : Type} (l1 l2 : List α) (n : Nat) (d : α)
    (h : l1.length ≤ n) : (l1 ++ l2).getD n d = l2.getD (n - l1.length) d := by
  induction l1 generalizing n with
  | nil => simp
  | cons x xs ih =>
    cases n with
    | zero => simp at h
    | succ n => simpa using ih n (by simpa using h)

theorem getD_map_range {α : Type} (f : Nat → α) (n i : Nat) (d : α) (h : i < n) :
    ((List.range n).map f).getD i d = f i := by
  induction n with
  | zero => omega
  | succ n ih =>
    rw [List.range_succ, List.map_append]
    by_cases hi : i < n
    · rw [getD_append_left _ _ _ _ (by simpa using hi)]
      exact ih hi
    · have hieq : i = n := by omega
      subst hieq
      rw [getD_append_right _ _ _ _ (by simp)]
      simp

theorem byteBits_getD (b i : Nat) (hi : i < 8) : (byteBits b).getD i 0 = b / 2 ^ i % 2 := by
  simp only [byteBits]
  rw [getD_map_range _ _ _ _ hi, Nat.shiftRight_eq_div_pow, Nat.and_one_is_mod]

theorem bytesToBits_getD :
    ∀ (bs : List Nat) (k i : Nat), k < bs.length → i < 8 →
      (bytesToBits bs).getD (8 * k + i) 0 = bs.getD k 0 / 2 ^ i % 2 := by
  intro bs
  induction bs with
  | nil => intro k i hk _; simp at hk
  | cons b t ih =>
    intro k i hk hi
    cases k with
    | zero =>
      simp only [bytesToBits, List.flatMap_cons, Nat.mul_zero, Nat.zero_add,
        List.getD_cons_zero]
      rw [getD_append_left _ _ _ _ (by rw [byteBits_length]; omega)]
      exact byteBits_getD b i hi
    | succ k =>
      simp only [bytesToBits, List.flatMap_cons, List.getD_cons_succ]
      rw [getD_append_right _ _ _ _ (by rw [byteBits_length]; omega), byteBits_length,
        show 8 * (k + 1) + i - 8 = 8 * k + i from by omega]
      exact ih k i (by simpa using hk) hi

theorem rasterCoords_getD (w h i : Nat) (hi : i < w * h) :
    (pixelCoords w h none).getD i (0, 0) = (i % w, i / w) := by
  show (rasterCoords w h).getD i (0, 0) = _
  rw [rasterCoords_eq]
  exact getD_map_range _ _ _ _ hi

theorem sha256_length (msg : List Nat) : (sha256 msg).length = 32 := by
  unfold sha256
  set t := sha256Blocks sha256H0 (sha256Pad msg) ((sha256Pad msg).length / 64) with ht
  obtain ⟨a, b, c, d, e, f, g, hh⟩ := t
  simp [wordBE4]

/-! ## The claims -/

set_option maxRecDepth 10000 in
/-- C1 (counterexample): an empty message satisfies the stated capacity bound on a
30-pixel carrier and encodes successfully, yet decoding the result returns the
absent outcome rather than the original message, because `_decode_image`
rejects the parsed length `0`.  The claimed round trip therefore fails at
`message = ""`. -/
theorem roundtrip_empty_message_counterexample :
    8 * (11 + ([] : List Nat).length) ≤ 3 * (30 * 1) ∧
    (encode (Image.mk 30 1 (List.replicate 30 (0, 0, 0))) [] none).toOption.map
      (fun o => decode o none) = some none ∧
    (none : Option (List Nat)) ≠ some [] :=
  ⟨by decide, by decide, by decide⟩

/-- C1 (amended): the round trip holds for every nonempty message of fewer than
2^32 bytes: for every well-formed image whose capacity satisfies
`3 * width * height ≥ 8 * (11 + len(message_bytes))` and every password
(including absent), decoding the encoded image with the same password returns
the original message.  (Nonemptiness is forced by the length-0 rejection in
`_decode_image`; the 2^32 bound is forced by the 4-byte length field, whose
`struct.pack` raises before anything else for longer messages.) -/
theorem roundtrip_nonempty (img : Image) (msg : List Nat) (pw : Option (List Nat))
    (hpx : img.pixels.length = img.width * img.height)
    (hmsg : ∀ b ∈ msg, b < 256)
    (hne : msg ≠ [])
    (hlen : msg.length < 4294967296)
    (hcap : 8 * (11 + msg.length) ≤ 3 * (img.width * img.height)) :
    ∃ out, encode img msg pw = Except.ok out ∧ decode out pw = some msg := by
  refine ⟨_, encode_ok img msg pw hlen (by rw [frame_length]; omega), ?_⟩
  have hdi := decodeImage_encode img.width img.height img.pixels msg pw hpx hmsg hne hlen hcap
  set OUT := Image.mk img.width img.height
    (embedLoop img.width img.pixels (pixelCoords img.width img.height pw)
      (bytesToBits (marker ++ packLE4 msg.length ++ msg))) with hOUT
  show (if pyTruthyBytes (decodeImage OUT pw) then decodeImage OUT pw
    else if pyTruthyPw pw then
      if pyTruthyBytes (decodeImage OUT none) then decodeImage OUT none else none
    else none) = some msg
  rw [hdi]
  have htr : pyTruthyBytes (some msg) = true := by
    cases msg
    · exact absurd rfl hne
    · rfl
  rw [htr]
  rfl

set_option maxRecDepth 10000 in
/-- C1 (witness): the amended round trip at a 35-pixel carrier, the 2-byte
message `hi` and no password. -/
theorem roundtrip_nonempty_witness :
    (witImg35.pixels.length = witImg35.width * witImg35.height) ∧
    ([104, 105] : List Nat) ≠ [] ∧
    8 * (11 + ([104, 105] : List Nat).length) ≤ 3 * (witImg35.width * witImg35.height) ∧
    (∃ out, encode witImg35 [104, 105] none = Except.ok out ∧
      decode out none = some [104, 105]) :=
  ⟨by decide, by decide, by decide,
    roundtrip_nonempty witImg35 [104, 105] none (by decide) (by decide) (by decide)
      (by decide) (by decide)⟩

theorem encode_struct_error (img : Image) (msg : List Nat) (pw : Option (List Nat))
    (h : 4294967296 ≤ msg.length) :
    encode img msg pw = Except.error EncodeError.structError := by
  unfold encode mkMessageBytes
  rw [if_neg (by omega)]

/-- C2 (counterexample): for a message of exactly 2^32 bytes on a 1-pixel image
the framed message needs more bits than the image holds, yet `encode` does not
fail with the capacity error: `struct.pack("<I", len)` on line 70 raises
`struct.error` before the capacity check on line 76 is reached. -/
theorem capacity_struct_error_counterexample :
    3 * ((1 : Nat) * 1) < 8 * (11 + (List.replicate 4294967296 (0 : Nat)).length) ∧
    encode (Image.mk 1 1 [(0, 0, 0)]) (List.replicate 4294967296 0) none
      = Except.error EncodeError.structError ∧
    ∀ r a, (Except.error (EncodeError.capacityError r a) : Except EncodeError Image)
      ≠ Except.error EncodeError.structError := by
  have hl : (List.replicate 4294967296 (0 : Nat)).length = 4294967296 := by
    rw [List.length_replicate]
  refine ⟨?_, ?_, ?_⟩
  · rw [hl]
    norm_num
  · exact encode_struct_error _ _ _ (by rw [hl])
  · intro r a
    simp

/-- C2 (amended): for messages shorter than 2^32 bytes, `encode` fails with the
capacity error exactly when `8 * (7 + 4 + len(message_bytes)) > 3 * width * height`;
the error then reports the required and available bit counts, and no modified
image is produced; a message requiring exactly `3 * width * height` bits encodes
successfully.  (For longer messages the 4-byte length field raises
`struct.error` on line 70 before the capacity check runs.) -/
theorem capacity_check (img : Image) (msg : List Nat) (pw : Option (List Nat))
    (hlen : msg.length < 4294967296) :
    ((∃ r a, encode img msg pw = Except.error (EncodeError.capacityError r a)) ↔
      3 * (img.width * img.height) < 8 * (11 + msg.length)) ∧
    (3 * (img.width * img.height) < 8 * (11 + msg.length) →
      encode img msg pw = Except.error
        (EncodeError.capacityError ((11 + msg.length) * 8) (img.width * img.height * 3))) ∧
    (8 * (11 + msg.length) = 3 * (img.width * img.height) →
      ∃ out, encode img msg pw = Except.ok out) := by
  have hreq := frame_length msg
  refine ⟨⟨?_, ?_⟩, ?_, ?_⟩
  · rintro ⟨r, a, hra⟩
    by_contra hnc
    rw [encode_ok img msg pw hlen (by rw [hreq]; omega)] at hra
    exact absurd hra (by simp)
  · intro hc
    exact ⟨_, _, by rw [encode_capacity_err img msg pw hlen (by rw [hreq]; omega), hreq]⟩
  · intro hc
    rw [encode_capacity_err img msg pw hlen (by rw [hreq]; omega), hreq]
  · intro hc
    exact ⟨_, encode_ok img msg pw hlen (by rw [hreq]; omega)⟩

/-- C2 (witness): a 1-byte message on a 1-pixel image raises the capacity error
with the correct bit counts, and on a 32-pixel image (capacity exactly
`3 * 32 * 1 = 96 = 8 * (11 + 1)` bits) it encodes successfully. -/
theorem capacity_check_witness :
    encode (Image.mk 1 1 [(0, 0, 0)]) [104] none
      = Except.error (EncodeError.capacityError ((11 + 1) * 8) (1 * 1 * 3)) ∧
    (∃ out, encode (Image.mk 32 1 (List.replicate 32 (0, 0, 0))) [104] none
      = Except.ok out) :=
  ⟨(capacity_check (Image.mk 1 1 [(0, 0, 0)]) [104] none (by decide)).2.1 (by decide),
   (capacity_check (Image.mk 32 1 (List.replicate 32 (0, 0, 0))) [104] none
      (by decide)).2.2 (by decide)⟩

/-- C3: decode totality and negative results.  The embedding of `decode` is a
total function into `Option` (every run resolves to `none` or `some m`; the
surrounding `try/except` of `_decode_image` is modeled by the `none` branches),
and each stated negative condition forces the attempt to resolve to `none`:
a marker mismatch in the first 7 recovered bytes, a truncated header, a parsed
length that is zero or exceeds `width * height`, and fewer recoverable bytes
than the declared frame requires. -/
theorem decode_negative_results (img : Image) (pw : Option (List Nat)) :
    (decode img pw = none ∨ ∃ m, decode img pw = some m) ∧
    ((headerBytes img pw).take 7 ≠ marker → decodeImage img pw = none) ∧
    ((headerBytes img pw).length < 11 → decodeImage img pw = none) ∧
    (parsedLength img pw = 0 ∨ img.width * img.height < parsedLength img pw →
      decodeImage img pw = none) ∧
    ((bytesFromBits (extractedBody img pw ((11 + parsedLength img pw) * 8))
        (11 + parsedLength img pw)).length < 11 + parsedLength img pw →
      decodeImage img pw = none) := by
  refine ⟨?_, ?_, ?_, ?_, ?_⟩
  · cases hd : decode img pw
    · exact Or.inl rfl
    · exact Or.inr ⟨_, rfl⟩
  · intro hm
    simp only [decodeImage]
    rw [if_neg (fun hc => hm hc.2)]
  · intro h11
    simp only [decodeImage]
    by_cases h7 : 7 ≤ (headerBytes img pw).length ∧ (headerBytes img pw).take 7 = marker
    · rw [if_pos h7, if_pos h11]
    · rw [if_neg h7]
  · intro hlen
    simp only [decodeImage]
    by_cases h7 : 7 ≤ (headerBytes img pw).length ∧ (headerBytes img pw).take 7 = marker
    · rw [if_pos h7]
      by_cases h11 : (headerBytes img pw).length < 11
      · rw [if_pos h11]
      · rw [if_neg h11, if_pos hlen]
    · rw [if_neg h7]
  · intro hshort
    simp only [decodeImage]
    by_cases h7 : 7 ≤ (headerBytes img pw).length ∧ (headerBytes img pw).take 7 = marker
    · rw [if_pos h7]
      by_cases h11 : (headerBytes img pw).length < 11
      · rw [if_pos h11]
      · rw [if_neg h11]
        by_cases hz : parsedLength img pw = 0 ∨ img.width * img.height < parsedLength img pw
        · rw [if_pos hz]
        · rw [if_neg hz, if_neg (by omega)]
    · rw [if_neg h7]

/-- C3 (witness): on a 2-pixel all-zero image without a password the recovered
header bytes cannot contain the marker, and the attempt resolves to the absent
outcome. -/
theorem decode_negative_results_witness :
    decodeImage witImg2 none = none :=
  (decode_negative_results witImg2 none).2.1 (by decide)

/-- C4 (corrected): outer retry behaviour.  If the first attempt with a truthy
password yields a falsy result, `decode` makes exactly one second attempt
without a password; if the first attempt yields a truthy result, that result is
returned with no retry.  Consequently, for an image encoded without a password
and within capacity, decoding with an arbitrary password `q` either recovers
the message via the fallback, or — and this is the correction — the attempt
with `q` itself finds a spurious nonempty frame in the password-ordered bits
and that spurious result is returned instead of the message. -/
theorem decode_retry_fallback :
    (∀ (img : Image) (q : List Nat), q ≠ [] →
      pyTruthyBytes (decodeImage img (some q)) = false →
      decode img (some q) =
        if pyTruthyBytes (decodeImage img none) then decodeImage img none else none) ∧
    (∀ (img : Image) (q : List Nat),
      pyTruthyBytes (decodeImage img (some q)) = true →
      decode img (some q) = decodeImage img (some q)) ∧
    (∀ (img : Image) (msg : List Nat) (q : Option (List Nat)),
      img.pixels.length = img.width * img.height →
      (∀ b ∈ msg, b < 256) → msg ≠ [] → msg.length < 4294967296 →
      8 * (11 + msg.length) ≤ 3 * (img.width * img.height) →
      ∃ out, encode img msg none = Except.ok out ∧
        (decode out q = some msg ∨
          (pyTruthyBytes (decodeImage out q) = true ∧
            decode out q = decodeImage out q))) := by
  have hpart2 : ∀ (img : Image) (q : List Nat),
      pyTruthyBytes (decodeImage img (some q)) = true →
      decode img (some q) = decodeImage img (some q) := by
    intro img q hq
    simp only [decode]
    rw [hq]
    simp
  have hpart1 : ∀ (img : Image) (q : List Nat), q ≠ [] →
      pyTruthyBytes (decodeImage img (some q)) = false →
      decode img (some q) =
        if pyTruthyBytes (decodeImage img none) then decodeImage img none else none := by
    intro img q hqne hq
    have hpwt : pyTruthyPw (some q) = true := by
      cases q
      · exact absurd rfl hqne
      · rfl
    simp only [decode]
    rw [hq, hpwt]
    simp
  refine ⟨hpart1, hpart2, ?_⟩
  intro img msg q hpx hmsg hne hlen hcap
  refine ⟨_, encode_ok img msg none hlen (by rw [frame_length]; omega), ?_⟩
  have hdnone := decodeImage_encode img.width img.height img.pixels msg none hpx hmsg hne
    hlen hcap
  set OUT := Image.mk img.width img.height
    (embedLoop img.width img.pixels (pixelCoords img.width img.height none)
      (bytesToBits (marker ++ packLE4 msg.length ++ msg))) with hOUT
  have htrmsg : pyTruthyBytes (some msg) = true := by
    cases msg
    · exact absurd rfl hne
    · rfl
  cases q with
  | none =>
    left
    show (if pyTruthyBytes (decodeImage OUT none) then decodeImage OUT none
      else if pyTruthyPw none then _ else none) = some msg
    rw [hdnone, htrmsg]
    simp [hdnone]
  | some q =>
    by_cases hq : pyTruthyBytes (decodeImage OUT (some q)) = true
    · exact Or.inr ⟨hq, hpart2 OUT q hq⟩
    · left
      have hq2 : pyTruthyBytes (decodeImage OUT (some q)) = false := by
        cases hb : pyTruthyBytes (decodeImage OUT (some q))
        · rfl
        · exact absurd hb hq
      by_cases hqe : q = []
      · subst hqe
        have heqn : decodeImage OUT (some []) = decodeImage OUT none :=
          decodeImage_pw_congr OUT (some []) none rfl
        rw [heqn, hdnone, htrmsg] at hq2
        exact absurd hq2 (by simp)
      · rw [hpart1 OUT q hqe hq2, hdnone, htrmsg]
        simp [hdnone]

/-- C4 (witness): encoding `hi` without a password into a 35-pixel carrier and
decoding with the wrong password `9` recovers the message through the
fallback branch (here the spurious alternative does not occur). -/
theorem decode_retry_fallback_witness :
    ∃ out, encode witImg35 [104, 105] none = Except.ok out ∧
      (decode out (some [57]) = some [104, 105] ∨
        (pyTruthyBytes (decodeImage out (some [57])) = true ∧
          decode out (some [57]) = decodeImage out (some [57]))) :=
  decode_retry_fallback.2.2 witImg35 [104, 105] (some [57]) (by decide) (by decide)
    (by decide) (by decide) (by decide)

/-- C4 (counterexample): the universal recovery statement is false.  The crafted
12-by-12 carrier `imgC4pixels` encodes the message `hi` (bytes `[104, 105]`)
without a password and well within capacity, but decoding the result with the
password `ccj` (bytes `[99, 99, 106]`) returns the spurious 1-byte message
`[1]`: the first, password-ordered attempt happens to see the marker and a
plausible length in the shuffled bit order, so its truthy result is returned
and the no-password fallback never runs. -/
theorem decode_retry_fallback_counterexample :
    8 * (11 + ([104, 105] : List Nat).length) ≤ 3 * (12 * 12) ∧
    encode (Image.mk 12 12 imgC4pixels) [104, 105] none
      = Except.ok (Image.mk 12 12 stegoC4pixels) ∧
    decode (Image.mk 12 12 stegoC4pixels) (some [99, 99, 106]) = some [1] ∧
    some [1] ≠ some ([104, 105] : List Nat) :=
  ⟨by decide, encode_imgC4, ccjStageDecode, by decide⟩

/-! ### Digest byte bounds and the shuffled form of the pixel order -/

theorem wordBE4_lt (n : Nat) : ∀ b ∈ wordBE4 n, b < 256 := by
  intro b hb
  simp only [wordBE4, List.mem_cons, List.not_mem_nil, or_false] at hb
  rcases hb with rfl | rfl | rfl | rfl <;> exact Nat.lt_succ_of_le Nat.and_le_right

theorem sha256_bytes_lt (msg : List Nat) : ∀ b ∈ sha256 msg, b < 256 := by
  unfold sha256
  simp only [List.forall_mem_append]
  exact ⟨⟨⟨⟨⟨⟨⟨wordBE4_lt _, wordBE4_lt _⟩, wordBE4_lt _⟩, wordBE4_lt _⟩,
    wordBE4_lt _⟩, wordBE4_lt _⟩, wordBE4_lt _⟩, wordBE4_lt _⟩

theorem foldlBE_lt : ∀ (bs : List Nat) (acc A : Nat), (∀ b ∈ bs, b < 256) → acc < A →
    bs.foldl (fun a b => a * 256 + b) acc < A * 256 ^ bs.length := by
  intro bs
  induction bs with
  | nil => intro acc A _ hA; simpa using hA
  | cons b t ih =>
    intro acc A h hA
    simp only [List.foldl_cons, List.length_cons]
    have hb : b < 256 := h b (by simp)
    have hstep : acc * 256 + b < A * 256 := by
      have h3 : (acc + 1) * 256 ≤ A * 256 := Nat.mul_le_mul_right _ (by omega)
      omega
    have := ih (acc * 256 + b) (A * 256) (fun x hx => h x (by simp [hx])) hstep
    calc t.foldl (fun a b => a * 256 + b) (acc * 256 + b) < A * 256 * 256 ^ t.length := this
      _ = A * 256 ^ (t.length + 1) := by ring

theorem seedOfPassword_lt (p : List Nat) : seedOfPassword p < 4294967296 := by
  have hlen : ((sha256 p).take 4).length = 4 := by
    rw [List.length_take, sha256_length]
    omega
  have hbd := foldlBE_lt ((sha256 p).take 4) 0 1
    (fun b hb => sha256_bytes_lt p b (List.take_subset 4 _ hb)) (by omega)
  rw [hlen] at hbd
  have h4 : (1 : Nat) * 256 ^ 4 = 4294967296 := by norm_num
  rw [h4] at hbd
  exact hbd

theorem pixelCoords_some_eq (w h : Nat) (p : List Nat) (hp : p ≠ []) :
    pixelCoords w h (some p) =
      (pyShuffle (seedOfPassword p) (List.range (w * h))).map
        (fun i => (i % w, i / w)) := by
  cases p with
  | nil => exact absurd rfl hp
  | cons a t => rfl

theorem pixelCoords_grid (w h : Nat) (pw : Option (List Nat)) (hw : 0 < w) :
    ∀ c ∈ pixelCoords w h pw, c.1 < w ∧ c.2 < h := by
  intro c hc
  have hmem := (pixelCoords_perm w h pw).mem_iff.mp hc
  obtain ⟨i, hi, rfl⟩ := List.mem_map.mp hmem
  have hi2 : i < w * h := List.mem_range.mp hi
  refine ⟨Nat.mod_lt _ hw, ?_⟩
  refine (Nat.div_lt_iff_lt_mul hw).mpr ?_
  rw [Nat.mul_comm h w]
  exact hi2

/-- C5: determinism of the pixel-order generator, and the password-to-seed
derivation.  The generator is a pure function, so two invocations at identical
inputs coincide; for a truthy password the sequence is a fixed function of the
seed, and the seed is the big-endian value of the first 4 bytes of the 32-byte
SHA-256 digest of the password bytes, an unsigned 32-bit integer. -/
theorem pixel_order_seed (w h : Nat) (p : List Nat) (hp : p ≠ []) :
    (∀ (w2 h2 : Nat) (p2 : List Nat), w2 = w → h2 = h → p2 = p →
      pixelCoords w2 h2 (some p2) = pixelCoords w h (some p)) ∧
    seedOfPassword p = bytesToNatBE ((sha256 p).take 4) ∧
    (sha256 p).length = 32 ∧
    seedOfPassword p < 4294967296 ∧
    pixelCoords w h (some p) =
      (pyShuffle (seedOfPassword p) (List.range (w * h))).map
        (fun i => (i % w, i / w)) := by
  refine ⟨?_, rfl, sha256_length p, seedOfPassword_lt p, pixelCoords_some_eq w h p hp⟩
  intro w2 h2 p2 hw2 hh2 hp2
  rw [hw2, hh2, hp2]

/-- C5 (witness): the seed facts at the 1-byte password `a`. -/
theorem pixel_order_seed_witness :
    seedOfPassword [97] = bytesToNatBE ((sha256 [97]).take 4) ∧
    seedOfPassword [97] < 4294967296 :=
  ⟨(pixel_order_seed 2 2 [97] (by decide)).2.1,
   (pixel_order_seed 2 2 [97] (by decide)).2.2.2.1⟩

/-- C6: the pixel order is a permutation of the grid: it has length
`width * height`, every listed coordinate lies inside the grid, and every grid
coordinate appears exactly once. -/
theorem pixel_order_permutation (w h : Nat) (pw : Option (List Nat))
    (hw : 0 < w) (hh : 0 < h) :
    (pixelCoords w h pw).length = w * h ∧
    (∀ c ∈ pixelCoords w h pw, c.1 < w ∧ c.2 < h) ∧
    (∀ x y, x < w → y < h → (pixelCoords w h pw).count (x, y) = 1) :=
  ⟨pixelCoords_length w h pw, pixelCoords_grid w h pw hw,
   fun x y hx hy => pixelCoords_count w h pw x y hx hy⟩

/-- C6 (witness): the permutation invariant on a 3-by-2 grid without a
password. -/
theorem pixel_order_permutation_witness :
    (pixelCoords 3 2 none).length = 3 * 2 ∧
    (pixelCoords 3 2 none).count (2, 1) = 1 :=
  ⟨(pixel_order_permutation 3 2 none (by decide) (by decide)).1,
   (pixel_order_permutation 3 2 none (by decide) (by decide)).2.2 2 1
     (by decide) (by decide)⟩

/-- C7: coordinate construction.  Without a password the sequence is the
natural raster order — row-major, `y` ranging over the rows and `x` over the
columns within each row, position `i` holding `(i mod width, i div width)`;
with a truthy password it is the shuffled linear-index list with each index `i`
mapped to `(i mod width, i div width)`. -/
theorem coordinate_construction (w h : Nat) (p : List Nat) (hp : p ≠ []) :
    pixelCoords w h none
      = (List.range h).flatMap (fun y => (List.range w).map (fun x => (x, y))) ∧
    (∀ i, i < w * h → (pixelCoords w h none).getD i (0, 0) = (i % w, i / w)) ∧
    pixelCoords w h (some p)
      = (pyShuffle (seedOfPassword p) (List.range (w * h))).map
          (fun i => (i % w, i / w)) :=
  ⟨rfl, fun i hi => rasterCoords_getD w h i hi, pixelCoords_some_eq w h p hp⟩

/-- C7 (witness): the raster order on a 2-by-2 grid, and the shuffled map-form
for the password `a`. -/
theorem coordinate_construction_witness :
    pixelCoords 2 2 none = [(0, 0), (1, 0), (0, 1), (1, 1)] ∧
    pixelCoords 2 2 (some [97])
      = (pyShuffle (seedOfPassword [97]) (List.range (2 * 2))).map
          (fun i => (i % 2, i / 2)) :=
  ⟨((coordinate_construction 2 2 [97] (by decide)).1).trans (by decide),
   (coordinate_construction 2 2 [97] (by decide)).2.2⟩

/-- C8: frame wire format.  For every message of fewer than 2^32 bytes the
framed byte sequence is the fixed 7-byte ASCII marker `SSSTEGO`, then the
message length as 4 little-endian bytes (recoverable by the little-endian
unpacking), then exactly the message bytes; the frame is flattened to bits
byte by byte with the least-significant bit of each byte first: bit `8k + i`
of the flattened sequence is bit `i` of frame byte `k`. -/
theorem frame_wire_format (msg : List Nat) (hlen : msg.length < 4294967296) :
    mkMessageBytes msg = Except.ok (marker ++ packLE4 msg.length ++ msg) ∧
    marker = [83, 83, 83, 84, 69, 71, 79] ∧
    marker.length = 7 ∧
    (packLE4 msg.length).length = 4 ∧
    unpackLE4 (packLE4 msg.length) = msg.length ∧
    (marker ++ packLE4 msg.length ++ msg).length = 11 + msg.length ∧
    (bytesToBits (marker ++ packLE4 msg.length ++ msg)).length
      = 8 * (11 + msg.length) ∧
    (∀ k i, k < 11 + msg.length → i < 8 →
      (bytesToBits (marker ++ packLE4 msg.length ++ msg)).getD (8 * k + i) 0
        = (marker ++ packLE4 msg.length ++ msg).getD k 0 / 2 ^ i % 2) := by
  refine ⟨by simp [mkMessageBytes, hlen], rfl, rfl, rfl, unpackLE4_packLE4 hlen,
    frame_length msg, ?_, ?_⟩
  · rw [bytesToBits_length, frame_length]
  · intro k i hk hi
    exact bytesToBits_getD _ k i (by rw [frame_length]; omega) hi

/-- C8 (witness): the frame facts at the 2-byte message `hi`: bit 11 of the
flattened frame is bit 3 of byte 1 (the second marker byte `83`). -/
theorem frame_wire_format_witness :
    mkMessageBytes [104, 105]
      = Except.ok (marker ++ packLE4 ([104, 105] : List Nat).length ++ [104, 105]) ∧
    unpackLE4 (packLE4 ([104, 105] : List Nat).length) = ([104, 105] : List Nat).length ∧
    (bytesToBits (marker ++ packLE4 ([104, 105] : List Nat).length ++ [104, 105])).getD
        (8 * 1 + 3) 0
      = (marker ++ packLE4 ([104, 105] : List Nat).length ++ [104, 105]).getD 1 0
          / 2 ^ 3 % 2 :=
  ⟨(frame_wire_format [104, 105] (by decide)).1,
   (frame_wire_format [104, 105] (by decide)).2.2.2.2.1,
   (frame_wire_format [104, 105] (by decide)).2.2.2.2.2.2.2 1 3 (by decide) (by decide)⟩

set_option maxRecDepth 20000 in
theorem encode_wit35 : encode witImg35 [104, 105] none
    = Except.ok (Image.mk 35 1 witOut35pixels) := by
  rw [encode_ok _ _ _ (by decide) (by decide)]
  simp only [witImg35, Image_width_mk, Image_height_mk, Image_pixels_mk]
  rw [show embedLoop 35 (List.replicate 35 (7, 200, 31)) (pixelCoords 35 1 none)
    (bytesToBits (marker ++ packLE4 ([104, 105] : List Nat).length ++ [104, 105]))
    = witOut35pixels from by decide]

/-- C9: frame and effect of `encode`.  For every successful encode of a
well-formed image with byte-valued channels, the output has the same
dimensions and pixel count; reading the channel LSBs of the output along the
visited coordinate order, red then green then blue within each pixel, yields
exactly the frame bits followed by the input's remaining LSBs; the high 7 bits
of every channel of every pixel are preserved; and every pixel outside the
visited prefix that the frame bits occupy is left exactly equal to its input
value. -/
theorem encode_frame_effect (img : Image) (msg : List Nat) (pw : Option (List Nat))
    (out : Image)
    (henc : encode img msg pw = Except.ok out)
    (hpx : img.pixels.length = img.width * img.height)
    (hch : ∀ p ∈ img.pixels, p.1 < 256 ∧ p.2.1 < 256 ∧ p.2.2 < 256) :
    out.width = img.width ∧ out.height = img.height ∧
    out.pixels.length = img.pixels.length ∧
    (pixelCoords img.width img.height pw).flatMap (pixBits out)
      = bytesToBits (marker ++ packLE4 msg.length ++ msg)
        ++ ((pixelCoords img.width img.height pw).flatMap (pixBits img)).drop
            (bytesToBits (marker ++ packLE4 msg.length ++ msg)).length ∧
    (∀ idx,
      (out.pixels.getD idx (0, 0, 0)).1 / 2 = (img.pixels.getD idx (0, 0, 0)).1 / 2 ∧
      (out.pixels.getD idx (0, 0, 0)).2.1 / 2 = (img.pixels.getD idx (0, 0, 0)).2.1 / 2 ∧
      (out.pixels.getD idx (0, 0, 0)).2.2 / 2 = (img.pixels.getD idx (0, 0, 0)).2.2 / 2) ∧
    (∀ idx, idx ∉ ((pixelCoords img.width img.height pw).take
        (((bytesToBits (marker ++ packLE4 msg.length ++ msg)).length + 2) / 3)).map
          (coordIdx img.width) →
      out.pixels.getD idx (0, 0, 0) = img.pixels.getD idx (0, 0, 0)) := by
  obtain ⟨hlen4, hcap8, houtEq⟩ := encode_ok_inv img msg pw out henc
  subst houtEq
  obtain ⟨WH, hWH⟩ : ∃ n, n = img.width * img.height := ⟨_, rfl⟩
  have hcoordlen : (pixelCoords img.width img.height pw).length = img.width * img.height :=
    pixelCoords_length img.width img.height pw
  have hframe8 : (marker ++ packLE4 msg.length ++ msg).length = 11 + msg.length :=
    frame_length msg
  refine ⟨rfl, rfl, ?_, ?_, ?_, ?_⟩
  · exact embedLoop_length img.width _ _ _
  · exact embedLoop_flatMap img.width img.height (pixelCoords img.width img.height pw)
      (bytesToBits (marker ++ packLE4 msg.length ++ msg)) img.pixels
      (pixelCoords_idx_nodup img.width img.height pw)
      (fun c hc => by
        rw [hpx]
        exact pixelCoords_idx_lt img.width img.height pw c hc)
      (bytesToBits_lt_two _)
      (by
        rw [bytesToBits_length, hcoordlen, hframe8, ← hWH]
        rw [hframe8, ← hWH] at hcap8
        omega)
  · intro idx
    exact embedLoop_div_two img.width (pixelCoords img.width img.height pw) img.pixels
      (bytesToBits (marker ++ packLE4 msg.length ++ msg)) hch idx
  · intro idx hidx
    exact embedLoop_getD_beyond img.width (pixelCoords img.width img.height pw)
      img.pixels (bytesToBits (marker ++ packLE4 msg.length ++ msg)) idx hidx

/-- C9 (witness): encoding `hi` into the 35-pixel carrier preserves the pixel
count and the high 7 bits of the first red channel. -/
theorem encode_frame_effect_witness :
    (Image.mk 35 1 witOut35pixels).pixels.length = witImg35.pixels.length ∧
    ((Image.mk 35 1 witOut35pixels).pixels.getD 0 (0, 0, 0)).1 / 2
      = (witImg35.pixels.getD 0 (0, 0, 0)).1 / 2 :=
  ⟨(encode_frame_effect witImg35 [104, 105] none (Image.mk 35 1 witOut35pixels)
      encode_wit35 (by decide) (by decide)).2.2.1,
   ((encode_frame_effect witImg35 [104, 105] none (Image.mk 35 1 witOut35pixels)
      encode_wit35 (by decide) (by decide)).2.2.2.2.1 0).1⟩

/-- C10: an empty-string password is treated as no password by both
operations: encoding with the empty password equals encoding with no
password, decoding with the empty password equals decoding with no password,
the empty-password decode is a single no-password attempt with no second
fallback attempt, and the pixel orders coincide. -/
theorem empty_password_like_none (img : Image) (msg : List Nat) :
    encode img msg (some []) = encode img msg none ∧
    decode img (some []) = decode img none ∧
    decode img (some []) =
      (if pyTruthyBytes (decodeImage img none) then decodeImage img none else none) ∧
    pixelCoords img.width img.height (some []) = pixelCoords img.width img.height none := by
  have hdi : decodeImage img (some []) = decodeImage img none :=
    decodeImage_pw_congr img (some []) none rfl
  have hsingle : decode img (some []) =
      if pyTruthyBytes (decodeImage img none) then decodeImage img none else none := by
    simp only [decode, hdi]
    by_cases hb : pyTruthyBytes (decodeImage img none) = true
    · rw [hb]
      simp
    · have hb2 : pyTruthyBytes (decodeImage img none) = false := by
        cases hbb : pyTruthyBytes (decodeImage img none)
        · rfl
        · exact absurd hbb hb
      rw [hb2]
      simp [pyTruthyPw]
  refine ⟨encode_pw_congr img msg (some []) none rfl, ?_, hsingle, rfl⟩
  rw [hsingle]
  simp only [decode]
  by_cases hb : pyTruthyBytes (decodeImage img none) = true
  · rw [hb]
    simp
  · have hb2 : pyTruthyBytes (decodeImage img none) = false := by
      cases hbb : pyTruthyBytes (decodeImage img none)
      · rfl
      · exact absurd hbb hb
    rw [hb2]
    simp [pyTruthyPw]

end Stego
